import Mathlib

/-!
# ProWriteBench scoring core: a shallow embedding

This file embeds the scoring and aggregation engine of ProWriteBench
(`src/utils/scoring.py`, `src/evaluators/*.py`, `src/benchmark.py`) in Lean.
Python strings are modelled as `List Char`, Python numbers (int/float) as `ℚ`
(with `ℝ` only where the source takes a square root), fallible computations as
`Except String`.  The external generation/judge capability is an oracle
parameter: an evaluator receives the raw reply text (or the raised error) of
each judge call it would make, and everything the source does with that reply
is modelled faithfully (regex extraction, `json.loads`, dict access,
truthiness).
-/

namespace ProWrite

/-- A Python string, as a list of characters. -/
abbrev PyStr := List Char

/-- The backtick character (written via its code point). -/
def btick : Char := Char.ofNat 96

/-- The opening-brace character. -/
def ob : Char := Char.ofNat 123

/-- The closing-brace character. -/
def cb : Char := Char.ofNat 125

/-- The double-quote character. -/
def dq : Char := Char.ofNat 34

/-- The backslash character. -/
def bsl : Char := Char.ofNat 92

/-- Python regex `\s` on ASCII: space, tab, newline, carriage return,
vertical tab, form feed. -/
def isReSpace (c : Char) : Bool :=
  c = ' ' || c = Char.ofNat 9 || c = Char.ofNat 10 || c = Char.ofNat 13 ||
  c = Char.ofNat 11 || c = Char.ofNat 12

/-- The whitespace set of Python `str.split()` (ASCII part): the same six
characters. -/
def isPySpace (c : Char) : Bool := isReSpace c

/-- JSON whitespace as accepted by `json.loads`: space, tab, newline,
carriage return. -/
def isJsonWs (c : Char) : Bool :=
  c = ' ' || c = Char.ofNat 9 || c = Char.ofNat 10 || c = Char.ofNat 13

/-- A parsed JSON value (the result of Python `json.loads`).  A number is
kept in scientific form, mantissa times a power of ten, exactly as the text
denotes it; its rational value is `ratOfSci`.  This covers both Python ints
and floats. -/
inductive Json where
  | null : Json
  | bool (b : Bool) : Json
  | num (m : ℤ) (e : ℤ) : Json
  | str (s : PyStr) : Json
  | arr (items : List Json) : Json
  | obj (members : List (PyStr × Json)) : Json

/-- The rational value `m * 10 ^ e` of a number in scientific form. -/
def ratOfSci (m e : ℤ) : ℚ :=
  if 0 ≤ e then (m : ℚ) * 10 ^ e.toNat else (m : ℚ) / 10 ^ (-e).toNat

/-- Insert a key into an object's member list the way a Python dict does:
a repeated key keeps its first position but takes the new value, a fresh key
goes at the end. -/
def insertKey (k : PyStr) (v : Json) : List (PyStr × Json) → List (PyStr × Json)
  | [] => [(k, v)]
  | (k', v') :: rest => if k' = k then (k, v) :: rest else (k', v') :: insertKey k v rest

/-- Build a dict from parsed members in source order: later duplicates
replace earlier values in place, as in Python. -/
def normMembers (ms : List (PyStr × Json)) : List (PyStr × Json) :=
  ms.foldl (fun acc p => insertKey p.1 p.2 acc) []

/-- Look a key up in an object's member list (Python `dict.get`, returning
`none` when absent). -/
def getKey (members : List (PyStr × Json)) (k : PyStr) : Option Json :=
  match members with
  | [] => none
  | (k', v) :: rest => if k' = k then some v else getKey rest k

/-- `dict.get` on a `Json` value that must be an object; a non-object raises
(`AttributeError` in Python). -/
def dictGet (j : Json) (k : PyStr) : Except String (Option Json) :=
  match j with
  | .obj members => .ok (getKey members k)
  | _ => .error "AttributeError"

/-- Hex digit value, for `\uXXXX` escapes. -/
def hexVal (c : Char) : Option Nat :=
  if '0' ≤ c ∧ c ≤ '9' then some (c.toNat - '0'.toNat)
  else if 'a' ≤ c ∧ c ≤ 'f' then some (c.toNat - 'a'.toNat + 10)
  else if 'A' ≤ c ∧ c ≤ 'F' then some (c.toNat - 'A'.toNat + 10)
  else none

/-- Parse the body of a JSON string (the opening quote already consumed),
returning the decoded characters and the rest of the input. -/
def parseStringBody : List Char → Except String (PyStr × List Char)
  | [] => .error "Unterminated string"
  | c :: rest =>
    if c = dq then .ok ([], rest)
    else if c = bsl then
      match rest with
      | [] => .error "Unterminated string escape"
      | e :: rest2 =>
        if e = 'u' then
          match rest2 with
          | h1 :: h2 :: h3 :: h4 :: rest3 =>
            match hexVal h1, hexVal h2, hexVal h3, hexVal h4 with
            | some a, some b, some c3, some d =>
              (parseStringBody rest3).map
                (fun p => (Char.ofNat (((a * 16 + b) * 16 + c3) * 16 + d) :: p.1, p.2))
            | _, _, _, _ => .error "Invalid hex escape"
          | _ => .error "Invalid hex escape"
        else
          match
            (if e = dq then some dq
             else if e = bsl then some bsl
             else if e = '/' then some '/'
             else if e = 'b' then some (Char.ofNat 8)
             else if e = 'f' then some (Char.ofNat 12)
             else if e = 'n' then some (Char.ofNat 10)
             else if e = 'r' then some (Char.ofNat 13)
             else if e = 't' then some (Char.ofNat 9)
             else none) with
          | some d => (parseStringBody rest2).map (fun p => (d :: p.1, p.2))
          | none => .error "Invalid escape"
    else if c.toNat < 32 then .error "Invalid control character"
    else (parseStringBody rest).map (fun p => (c :: p.1, p.2))

/-- Take a maximal run of decimal digits. -/
def takeDigits : List Char → (List Char × List Char)
  | [] => ([], [])
  | c :: rest =>
    if c.isDigit then
      let p := takeDigits rest
      (c :: p.1, p.2)
    else ([], c :: rest)

/-- Numeric value of a digit run. -/
def digitsVal (ds : List Char) : ℕ :=
  ds.foldl (fun acc c => acc * 10 + (c.toNat - '0'.toNat)) 0

/-- Parse a JSON number (leading-zero rule included), returning its value in
scientific form (mantissa, power of ten) and the rest of the input. -/
def parseNumber (s : List Char) : Except String ((ℤ × ℤ) × List Char) :=
  let (neg, s1) :=
    match s with
    | c :: rest => if c = '-' then (true, rest) else (false, s)
    | [] => (false, s)
  let (ids, s2) := takeDigits s1
  if ids = [] then .error "Expecting value"
  else if ids.length > 1 ∧ ids.head? = some '0' then .error "Expecting value"
  else
    let (fracPart, s3) :=
      match s2 with
      | c :: rest =>
        if c = '.' then
          let (fds, s3') := takeDigits rest
          ((if fds = [] then none else some fds), s3')
        else (some [], s2)
      | [] => (some [], s2)
    match fracPart with
    | none => .error "Expecting digits after decimal point"
    | some fds =>
      let (expPart, s4) :=
        match s3 with
        | c :: rest =>
          if c = 'e' ∨ c = 'E' then
            let (esign, rest2) :=
              match rest with
              | d :: rest' =>
                if d = '-' then ((-1 : ℤ), rest')
                else if d = '+' then ((1 : ℤ), rest')
                else ((1 : ℤ), rest)
              | [] => ((1 : ℤ), rest)
            let (eds, s4') := takeDigits rest2
            ((if eds = [] then none else some (esign * (digitsVal eds : ℤ))), s4')
          else (some 0, s3)
        | [] => (some 0, s3)
      match expPart with
      | none => .error "Expecting exponent digits"
      | some e =>
        let mant : ℤ := (digitsVal (ids ++ fds) : ℤ)
        .ok (((if neg then -mant else mant), e - fds.length), s4)

/-- Map a fallible function over a list, left to right, stopping at the
first error (the effect order of a Python list comprehension). -/
def mapE {a b : Type} (f : a → Except String b) : List a → Except String (List b)
  | [] => .ok []
  | x :: rest => do
    let y ← f x
    let ys ← mapE f rest
    .ok (y :: ys)

/-- Check that `p` is a prefix of `s`; on success return the remainder. -/
def stripLit (p : List Char) (s : List Char) : Option (List Char) :=
  match p, s with
  | [], s => some s
  | _ :: _, [] => none
  | a :: p', b :: s' => if a = b then stripLit p' s' else none

mutual

/-- Parse one JSON value (fuel-based recursion; the fuel is set larger than
the input length, so it never runs out on real input). -/
def parseVal : ℕ → List Char → Except String (Json × List Char)
  | 0, _ => .error "fuel exhausted"
  | _ + 1, [] => .error "Expecting value"
  | fuel + 1, c :: rest =>
    if c = ob then
      (parseObjRest fuel (List.dropWhile isJsonWs rest) true).map
        (fun p => (match p.1 with
          | Json.obj ms => Json.obj (normMembers ms)
          | j => j, p.2))
    else if c = '[' then parseArrRest fuel (List.dropWhile isJsonWs rest) true
    else if c = dq then (parseStringBody rest).map (fun p => (Json.str p.1, p.2))
    else
      match stripLit ['t', 'r', 'u', 'e'] (c :: rest) with
      | some r => .ok (Json.bool true, r)
      | none =>
        match stripLit ['f', 'a', 'l', 's', 'e'] (c :: rest) with
        | some r => .ok (Json.bool false, r)
        | none =>
          match stripLit ['n', 'u', 'l', 'l'] (c :: rest) with
          | some r => .ok (Json.null, r)
          | none => (parseNumber (c :: rest)).map (fun p => (Json.num p.1.1 p.1.2, p.2))

/-- Parse the members of an object, the opening brace already consumed and
leading whitespace stripped.  `first` is true before the first member. -/
def parseObjRest : ℕ → List Char → Bool → Except String (Json × List Char)
  | 0, _, _ => .error "fuel exhausted"
  | _ + 1, [], _ => .error "Expecting property name"
  | fuel + 1, c :: rest, first =>
    if first ∧ c = cb then .ok (Json.obj [], rest)
    else if c = dq then
      match parseStringBody rest with
      | .error e => .error e
      | .ok (k, rest2) =>
        match List.dropWhile isJsonWs rest2 with
        | [] => .error "Expecting colon"
        | c2 :: rest3 =>
          if c2 = ':' then
            match parseVal fuel (List.dropWhile isJsonWs rest3) with
            | .error e => .error e
            | .ok (v, rest4) =>
              match List.dropWhile isJsonWs rest4 with
              | [] => .error "Expecting comma or brace"
              | c3 :: rest5 =>
                if c3 = cb then .ok (Json.obj [(k, v)], rest5)
                else if c3 = ',' then
                  match parseObjRest fuel (List.dropWhile isJsonWs rest5) false with
                  | .ok (Json.obj members, rest6) =>
                    .ok (Json.obj ((k, v) :: members), rest6)
                  | .ok _ => .error "impossible"
                  | .error e => .error e
                else .error "Expecting comma or brace"
          else .error "Expecting colon"
    else .error "Expecting property name"

/-- Parse the items of an array, the opening bracket already consumed and
leading whitespace stripped. -/
def parseArrRest : ℕ → List Char → Bool → Except String (Json × List Char)
  | 0, _, _ => .error "fuel exhausted"
  | _ + 1, [], _ => .error "Expecting value"
  | fuel + 1, c :: rest, first =>
    if first ∧ c = ']' then .ok (Json.arr [], rest)
    else
      match parseVal fuel (c :: rest) with
      | .error e => .error e
      | .ok (v, rest2) =>
        match List.dropWhile isJsonWs rest2 with
        | [] => .error "Expecting comma or bracket"
        | c2 :: rest3 =>
          if c2 = ']' then .ok (Json.arr [v], rest3)
          else if c2 = ',' then
            match parseArrRest fuel (List.dropWhile isJsonWs rest3) false with
            | .ok (Json.arr items, rest4) => .ok (Json.arr (v :: items), rest4)
            | .ok _ => .error "impossible"
            | .error e => .error e
          else .error "Expecting comma or bracket"

end

/-- Python `json.loads`: parse one complete JSON value, allowing surrounding
whitespace, and reject trailing data. -/
def loads (s : PyStr) : Except String Json :=
  match parseVal (s.length + 1) (List.dropWhile isJsonWs s) with
  | .error e => .error e
  | .ok (j, rest) =>
    if List.dropWhile isJsonWs rest = [] then .ok j else .error "Extra data"

/-! ## Regex models

The evaluators extract a JSON fragment from a judge reply with two regexes
(`judge_eval.py` lines 104–115, and the same pattern in the other
evaluators):

* a fenced block, with non-greedy body: the pattern is three backticks,
  an optional `json` tag, whitespace, then a brace-delimited group ending at
  the first closing brace that is followed by whitespace and three backticks;
* otherwise the greedy brace span, from the first opening brace to the last
  closing brace of the whole reply.
-/

/-- Does a fence (three backticks, after optional regex whitespace) follow
here?  This is the `\s*` + three-backticks tail of the fenced pattern. -/
def fenceFollows (s : List Char) : Bool :=
  match stripLit [btick, btick, btick] (List.dropWhile isReSpace s) with
  | some _ => true
  | none => false

/-- Scan the characters after the group's opening brace for the first closing
brace that is followed by a fence (the non-greedy `.*?`), returning the
characters strictly between the braces. -/
def scanBody : List Char → Option (List Char)
  | [] => none
  | c :: rest =>
    if c = cb ∧ fenceFollows rest then some []
    else (scanBody rest).map (c :: ·)

/-- Try to match the fenced pattern starting exactly here; on success return
the captured group (braces included). -/
def tryFenceAt (s : List Char) : Option (List Char) :=
  match stripLit [btick, btick, btick] s with
  | none => none
  | some s1 =>
    let s2 := match stripLit ['j', 's', 'o', 'n'] s1 with
      | some r => r
      | none => s1
    match List.dropWhile isReSpace s2 with
    | [] => none
    | c :: body =>
      if c = ob then (scanBody body).map (fun m => ob :: m ++ [cb]) else none

/-- `re.search` of the fenced pattern: the leftmost position where the whole
pattern matches, returning the captured group. -/
def searchFence : List Char → Option (List Char)
  | [] => none
  | c :: rest =>
    match tryFenceAt (c :: rest) with
    | some g => some g
    | none => searchFence rest

/-- `re.search` of the greedy pattern (an opening brace, then greedily
anything across line breaks, then a closing brace): the span from the first
opening brace to the last closing brace after it, if any. -/
def greedyBrace (s : List Char) : Option (List Char) :=
  match List.dropWhile (· ≠ ob) s with
  | [] => none
  | _ :: rest =>
    let r := (List.dropWhile (· ≠ cb) rest.reverse).reverse
    if r = [] then none else some (ob :: r)

/-- The JSON-extraction step of `JudgeEvaluator.evaluate` (lines 104–115):
fenced block first, then greedy brace span, else the `ValueError`. -/
def extract_json (response : PyStr) : Except String PyStr :=
  match searchFence response with
  | some g => .ok g
  | none =>
    match greedyBrace response with
    | some s => .ok s
    | none => .error "No JSON found in judge response"

/-- The same extraction step as it appears in the stakeholder, audience and
revision evaluators, whose `ValueError` message differs. -/
def extract_json_fanout (response : PyStr) : Except String PyStr :=
  match searchFence response with
  | some g => .ok g
  | none =>
    match greedyBrace response with
    | some s => .ok s
    | none => .error "No JSON found in response"

/-- Extraction followed by `json.loads`, as in `JudgeEvaluator.evaluate`. -/
def extractAndParse (response : PyStr) : Except String Json :=
  extract_json response >>= loads

/-- Extraction followed by `json.loads`, as in the fan-out evaluators. -/
def extractAndParseFanout (response : PyStr) : Except String Json :=
  extract_json_fanout response >>= loads

/-! ## String utilities (`src/utils/scoring.py`) -/

/-- Helper for Python `str.split()`: accumulate the current word (reversed)
while walking the string. -/
def splitAux : List Char → List Char → List PyStr
  | [], acc => if acc = [] then [] else [acc.reverse]
  | c :: rest, acc =>
    if isPySpace c then
      if acc = [] then splitAux rest [] else acc.reverse :: splitAux rest []
    else splitAux rest (c :: acc)

/-- Python `str.split()` with no argument: split on runs of whitespace,
ignoring leading and trailing whitespace. -/
def pySplit (s : PyStr) : List PyStr := splitAux s []

/-- `count_words` (`scoring.py` lines 146–156): `len(text.split())`. -/
def count_words (text : PyStr) : ℕ := (pySplit text).length

/-- Case folding for `re.IGNORECASE` literal search (ASCII). -/
def lowerStr (s : PyStr) : PyStr := s.map Char.toLower

/-- Literal (case-sensitive) substring containment, Python `needle in s`. -/
def containsSub (needle : PyStr) : PyStr → Bool
  | [] => needle = []
  | c :: rest =>
    (match stripLit needle (c :: rest) with
     | some _ => true
     | none => false) || containsSub needle rest

/-- Case-insensitive literal substring search:
`re.search(re.escape(needle), haystack, re.IGNORECASE)` viewed as a Boolean. -/
def iSearch (needle haystack : PyStr) : Bool :=
  containsSub (lowerStr needle) (lowerStr haystack)

/-! ## Scores and aggregation (`src/utils/scoring.py`) -/

/-- A dimension `Score`.  The `details` dict is modelled by its two keys the
aggregation and the claims read: an optional `critical_failure` list and an
optional `error` string; a key that the evaluator did not put in the dict is
`none`. -/
structure Score where
  dimension : PyStr
  score : ℚ
  weight : ℚ
  passed : Bool
  critical_failure : Option (List PyStr) := none
  error : Option PyStr := none

/-- Python's banker's rounding to an integer (`round(x)`): nearest integer,
ties to even. -/
def pyRound (x : ℚ) : ℤ :=
  let f := ⌊x⌋
  let r := x - (f : ℚ)
  if r < 1 / 2 then f
  else if 1 / 2 < r then f + 1
  else if f % 2 = 0 then f else f + 1

/-- Python `round(x, 2)`. -/
def round2 (x : ℚ) : ℚ := (pyRound (x * 100) : ℚ) / 100

/-- The aggregator's canonical weight table (`ScoreAggregator.DEFAULT_WEIGHTS`). -/
def DEFAULT_WEIGHTS : List (PyStr × ℚ) :=
  [("constraint_satisfaction".data, 30 / 100),
   ("audience_clarity".data, 25 / 100),
   ("stakeholder_balance".data, 20 / 100),
   ("professional_appropriateness".data, 15 / 100),
   ("revision_coherence".data, 10 / 100)]

/-- Weight lookup `self.weights.get(score.dimension, 0.0)`. -/
def weightOf (weights : List (PyStr × ℚ)) (dim : PyStr) : ℚ :=
  match weights with
  | [] => 0
  | (d, w) :: rest => if d = dim then w else weightOf rest dim

/-- The result record of `ScoreAggregator.aggregate`. -/
structure AggregateResult where
  overall_score : ℚ
  dimension_scores : List (PyStr × ℚ × ℚ × Bool)
  critical_failures : List PyStr
  penalty_multiplier : ℚ
  passed : Bool

/-- The loop body state of `ScoreAggregator.aggregate`. -/
structure AggState where
  weighted_sum : ℚ := 0
  dimension_scores : List (PyStr × ℚ × ℚ × Bool) := []
  critical_failures : List PyStr := []
  all_passed : Bool := true

/-- One iteration of the `for score in scores` loop of
`ScoreAggregator.aggregate` (lines 64–78): add the weighted score, record the
dimension entry, and — only when the score did not pass and its details carry
a `critical_failure` key — extend the flat critical-failure list. -/
def aggStep (weights : List (PyStr × ℚ)) (st : AggState) (s : Score) : AggState :=
  let w := weightOf weights s.dimension
  { weighted_sum := st.weighted_sum + s.score * w
    dimension_scores := st.dimension_scores ++ [(s.dimension, s.score, w, s.passed)]
    critical_failures :=
      if ¬ s.passed then
        match s.critical_failure with
        | some tags => st.critical_failures ++ tags
        | none => st.critical_failures
      else st.critical_failures
    all_passed := if ¬ s.passed then false else st.all_passed }

/-- `ScoreAggregator.aggregate` (`scoring.py` lines 44–93). -/
def aggregate (weights : List (PyStr × ℚ)) (scores : List Score) : AggregateResult :=
  let st := scores.foldl (aggStep weights) {}
  let penalty_multiplier : ℚ := (1 / 2) ^ st.critical_failures.length
  let overall_score :=
    if st.critical_failures ≠ [] then st.weighted_sum * penalty_multiplier
    else st.weighted_sum
  { overall_score := round2 overall_score
    dimension_scores := st.dimension_scores
    critical_failures := st.critical_failures
    penalty_multiplier := if st.critical_failures ≠ [] then penalty_multiplier else 1
    passed := st.all_passed }

/-- A per-task result record as assembled by `ProWriteBench.evaluate_task`:
a Python dict, each key present or absent. -/
structure TaskResult where
  task_id : PyStr
  category : PyStr
  difficulty : PyStr
  error : Option PyStr := none
  generated_text : Option PyStr := none
  overall_score : Option ℚ := none
  critical_failures : Option (List PyStr) := none
  penalty_multiplier : Option ℚ := none
  passed : Option Bool := none

/-- Python `result["key"]`: a missing key raises `KeyError`. -/
def reqKey {α : Type} (v : Option α) (name : String) : Except String α :=
  match v with
  | some x => .ok x
  | none => .error ("KeyError: " ++ name)

/-- The run-level summary record of `aggregate_multiple_tasks`. -/
structure RunSummary where
  average_score : ℚ
  median_score : ℚ
  pass_rate : ℚ
  total_tasks : ℕ
  passed_tasks : ℕ := 0
  failed_tasks : ℕ := 0
  category_averages : List (PyStr × ℚ) := []

/-- `task_id.split("-")[0]`: the characters before the first dash. -/
def categoryOfId (tid : PyStr) : PyStr := tid.takeWhile (· ≠ '-')

/-- Append a score to its category bucket, creating the bucket on first use
(insertion-ordered, like a Python dict). -/
def addToCategory (stats : List (PyStr × List ℚ)) (cat : PyStr) (v : ℚ) :
    List (PyStr × List ℚ) :=
  match stats with
  | [] => [(cat, [v])]
  | (c, vs) :: rest =>
    if c = cat then (c, vs ++ [v]) :: rest else (c, vs) :: addToCategory rest cat v

/-- `ScoreAggregator.aggregate_multiple_tasks` (`scoring.py` lines 95–143).
Reading `result["overall_score"]` or `result["passed"]` on a task result that
lacks the key raises `KeyError`, so the whole computation is fallible. -/
def aggregate_multiple_tasks (task_results : List TaskResult) :
    Except String RunSummary :=
  if task_results.length = 0 then
    .ok { average_score := 0, median_score := 0, pass_rate := 0, total_tasks := 0 }
  else do
    let scores ← mapE (fun r => reqKey r.overall_score "overall_score") task_results
    let passedFlags ← mapE (fun r => reqKey r.passed "passed") task_results
    let passed_count := (passedFlags.filter (· = true)).length
    let average_score := scores.sum / scores.length
    let sorted := scores.mergeSort (fun a b => a ≤ b)
    let median_score := sorted.getD (scores.length / 2) 0
    let pass_rate := (passed_count : ℚ) / task_results.length
    let category_stats :=
      task_results.foldl
        (fun stats r =>
          match r.overall_score with
          | some v => addToCategory stats (categoryOfId r.task_id) v
          | none => stats)
        []
    let category_averages :=
      category_stats.map (fun p => (p.1, round2 (p.2.sum / p.2.length)))
    .ok { average_score := round2 average_score
          median_score := round2 median_score
          pass_rate := round2 pass_rate
          total_tasks := task_results.length
          passed_tasks := passed_count
          failed_tasks := task_results.length - passed_count
          category_averages := category_averages }

/-! ## ConstraintEvaluator (`src/evaluators/constraint_eval.py`) -/

/-- Task `Constraints` (`src/tasks.py`): the word-count field is an optional
dict with integer values (only `min` and `max` are ever read). -/
structure Constraints where
  word_count : Option (List (PyStr × ℤ)) := none
  required_elements : List PyStr := []
  forbidden_elements : List PyStr := []
  tone : Option PyStr := none

/-- Integer dict lookup. -/
def intGet (d : List (PyStr × ℤ)) (k : PyStr) : Option ℤ :=
  match d with
  | [] => none
  | (k', v) :: rest => if k' = k then some v else intGet rest k

/-- Python truthiness of the optional word-count dict
(`if constraints.word_count:`): present and non-empty. -/
def wcTruthy (wc : Option (List (PyStr × ℤ))) : Bool :=
  match wc with
  | some d => ¬ d.isEmpty
  | none => false

/-- The word-count check of `ConstraintEvaluator.evaluate` (lines 32–41):
`min_allowed <= word_count <= max_allowed` with `min_allowed = min * 0.9`,
`max_allowed = max * 1.1`, `min` defaulting to `0` and `max` to infinity. -/
def wordCountOk (d : List (PyStr × ℤ)) (n : ℕ) : Bool :=
  let mn : ℤ := (intGet d "min".data).getD 0
  (decide ((mn : ℚ) * (9 / 10) ≤ (n : ℚ))) &&
    (match intGet d "max".data with
     | none => true
     | some mx => decide ((n : ℚ) ≤ (mx : ℚ) * (11 / 10)))

/-- Render the word-count failure message
`f"Word count {word_count} outside range {min_words}-{max_words}"`. -/
def wcFailMsg (d : List (PyStr × ℤ)) (n : ℕ) : PyStr :=
  let mn : ℤ := (intGet d "min".data).getD 0
  let mxStr : PyStr :=
    match intGet d "max".data with
    | none => "inf".data
    | some mx => (toString mx).data
  "Word count ".data ++ (toString n).data ++ " outside range ".data ++
    (toString mn).data ++ ['-'] ++ mxStr

/-- The intermediate `checks`/`failures` state that
`ConstraintEvaluator.evaluate` assembles before scoring (lines 27–79). -/
structure ConstraintChecks where
  word_count_passed : Option Bool := none
  required_found : List Bool := []
  forbidden_found : List Bool := []
  failures : List PyStr := []

/-- Run the three check groups of `ConstraintEvaluator.evaluate` in source
order: word count (when the dict is truthy), then each required element, then
each forbidden element, appending a failure message for each failed check. -/
def runConstraintChecks (c : Constraints) (text : PyStr) : ConstraintChecks :=
  let word_count := count_words text
  let (wcp, f0) : Option Bool × List PyStr :=
    match c.word_count with
    | some d =>
      if ¬ d.isEmpty then
        let ok := wordCountOk d word_count
        (some ok, if ok then [] else [wcFailMsg d word_count])
      else (none, [])
    | none => (none, [])
  let reqFound := c.required_elements.map (fun r => iSearch r text)
  let f1 := c.required_elements.filterMap
    (fun r => if iSearch r text then none else some ("Missing required element: ".data ++ r))
  let forbFound := c.forbidden_elements.map (fun f => iSearch f text)
  let f2 := c.forbidden_elements.filterMap
    (fun f => if iSearch f text then some ("Contains forbidden element: ".data ++ f) else none)
  { word_count_passed := wcp
    required_found := reqFound
    forbidden_found := forbFound
    failures := f0 ++ f1 ++ f2 }

/-- The critical-failure classification of `ConstraintEvaluator.evaluate`
(lines 94–101): a substring scan over the accumulated failure messages. -/
def classifyCritical (failures : List PyStr) : List PyStr :=
  if failures.isEmpty then []
  else
    (if failures.any (fun f => containsSub "Missing required".data f) then
      ["missing_required_elements".data] else []) ++
    (if failures.any (fun f => containsSub "forbidden".data f) then
      ["contains_forbidden_content".data] else [])

/-- `ConstraintEvaluator.evaluate` (`constraint_eval.py` lines 16–113). -/
def ConstraintEvaluator_evaluate (c : Constraints) (text : PyStr) : Score :=
  let checks := runConstraintChecks c text
  let total_checks : ℕ :=
    (if wcTruthy c.word_count then 1 else 0) +
      c.required_elements.length + c.forbidden_elements.length
  let score : ℚ :=
    if total_checks = 0 then 100
    else ((total_checks : ℚ) - checks.failures.length) / total_checks * 100
  { dimension := "constraint_satisfaction".data
    score := score
    weight := 30 / 100
    passed := checks.failures.isEmpty
    critical_failure := some (classifyCritical checks.failures) }

/-! ## JudgeEvaluator (`src/evaluators/judge_eval.py`) -/

/-- Python truthiness of a parsed JSON value. -/
def pyTruthy : Json → Bool
  | .null => false
  | .bool b => b
  | .num m _ => m != 0
  | .str s => !s.isEmpty
  | .arr l => !l.isEmpty
  | .obj m => !m.isEmpty

/-- Python `any(x)`: iterate and test truthiness; a non-iterable raises
`TypeError`.  Iterating a string yields its one-character strings, an object
its keys. -/
def pyAny : Json → Except String Bool
  | .arr l => .ok (l.any pyTruthy)
  | .str s => .ok (!s.isEmpty)
  | .obj m => .ok (m.any (fun p => !p.1.isEmpty))
  | _ => .error "TypeError: not iterable"

/-- A JSON value used as a Python number: ints/floats are numbers, bools
count as 0/1; anything else makes arithmetic raise `TypeError`. -/
def asPyNum : Json → Except String ℚ
  | .num m e => .ok (ratOfSci m e)
  | .bool b => .ok (if b then 1 else 0)
  | _ => .error "TypeError: unsupported operand"

/-- `evaluation.get(key, {}).get("score", 0)` (lines 120–126): the raw JSON
value of one sub-criterion score, defaulting to `0`. -/
def subScore (ev : Json) (key : PyStr) : Except String Json := do
  match ← dictGet ev key with
  | none => .ok (Json.num 0 0)
  | some fv => do
    match ← dictGet fv "score".data with
    | none => .ok (Json.num 0 0)
    | some sv => .ok sv

/-- The five fixed sub-criterion keys, in source order. -/
def judgeKeys : List PyStr :=
  ["tone_appropriateness".data, "diplomatic_language".data,
   "professional_formatting".data, "clarity".data, "completeness".data]

/-- The five sub-scores of the judge evaluation, as numbers (summing them in
Python raises on a non-numeric value). -/
def judgeScores (ev : Json) : Except String (List ℚ) :=
  mapE (fun k => subScore ev k >>= asPyNum) judgeKeys

/-- `if critical_issues and any(critical_issues)` (line 133): short-circuit
truthiness, then `any`. -/
def criticalCond (ci : Json) : Except String Bool :=
  if pyTruthy ci then pyAny ci else .ok false

/-- The happy path of `JudgeEvaluator.evaluate` (lines 97–146), from the
judge reply (or the error the judge call raised) to the returned `Score`. -/
def judgeHappy (response : Except String PyStr) : Except String Score := do
  let resp ← response
  let ev ← extractAndParse resp
  let ss ← judgeScores ev
  let overall := ss.sum / (ss.length : ℚ)
  let ci := (← dictGet ev "critical_issues".data).getD (Json.arr [])
  let cond ← criticalCond ci
  let cf : List PyStr := if cond then ["inappropriate_professional_tone".data] else []
  .ok { dimension := "professional_appropriateness".data
        score := overall
        weight := 15 / 100
        passed := decide ((60 : ℚ) ≤ overall) && cf.isEmpty
        critical_failure := some cf }

/-- `JudgeEvaluator.evaluate` (lines 75–159): on any exception in the try
block, the neutral score 50 with the error string in the details. -/
def JudgeEvaluator_evaluate (response : Except String PyStr) : Score :=
  match judgeHappy response with
  | .ok s => s
  | .error e =>
    { dimension := "professional_appropriateness".data
      score := 50
      weight := 15 / 100
      passed := false
      critical_failure := none
      error := some e.data }

/-! ## StakeholderEvaluator (`src/evaluators/stakeholder_eval.py`)

The per-stakeholder judge call plus JSON extraction (`_evaluate_stakeholder`)
is a pipeline from the raw judge reply; the evaluator itself consumes the
list of per-stakeholder pipeline outcomes.  Since the source takes
`variance ** 0.5`, the combined score lives in `ℝ`.
-/

/-- A task `Stakeholder` (`src/tasks.py`). -/
structure Stakeholder where
  name : PyStr
  needs : List PyStr
  concerns : List PyStr

/-- `stakeholder_score["score"]` guarded by the per-item `try`: the value is
collected exactly when the pipeline succeeded with a dict containing the
key; every other outcome (error, non-dict, missing key) is caught and
recorded as an error entry. -/
def itemScoreVal (r : Except String Json) : Option Json :=
  match r with
  | .ok (Json.obj m) => getKey m "score".data
  | _ => none

/-- The combination rule of `StakeholderEvaluator.evaluate` (lines 90–107):
min, then `0.6*min + 0.4*mean`, then — only with more than one score — the
balance penalty `stddev/10` with a floor at 0; `50.0` when no stakeholder
was scored. -/
noncomputable def stakeholderCombine (ss : List ℚ) : ℝ :=
  match ss with
  | [] => 50
  | x :: xs =>
    let mn := xs.foldl min x
    let avg : ℚ := (x :: xs).sum / ((x :: xs).length : ℚ)
    let base : ℚ := mn * (6 / 10) + avg * (4 / 10)
    if 1 < (x :: xs).length then
      let variance : ℚ := ((x :: xs).map (fun s => (s - avg) ^ 2)).sum / ((x :: xs).length : ℚ)
      max 0 ((base : ℝ) - Real.sqrt (variance : ℝ) / 10)
    else (base : ℝ)

/-- The `Score` a stakeholder evaluation returns; its numeric score is real
and its `passed` gate is the proposition `score ≥ 60` (or `True` on the
auto-pass branch).  Its details never carry a `critical_failure` key. -/
structure StakeholderResult where
  dimension : PyStr
  score : ℝ
  weight : ℚ
  passed : Prop
  critical_failure : Option (List PyStr) := none

/-- `StakeholderEvaluator.evaluate` (lines 55–119) over the per-stakeholder
pipeline outcomes.  A non-numeric collected score makes the later `min`/`sum`
arithmetic raise, which propagates out of `evaluate`. -/
noncomputable def StakeholderEvaluator_evaluate (stakeholders : List Stakeholder)
    (results : List (Except String Json)) : Except String StakeholderResult :=
  if stakeholders.isEmpty then
    .ok { dimension := "stakeholder_balance".data, score := 100, weight := 20 / 100,
          passed := True }
  else do
    let svals := results.filterMap itemScoreVal
    let ss ← mapE asPyNum svals
    let overall := stakeholderCombine ss
    .ok { dimension := "stakeholder_balance".data, score := overall, weight := 20 / 100,
          passed := (60 : ℝ) ≤ overall }

/-! ## AudienceEvaluator (`src/evaluators/audience_eval.py`) -/

/-- `_get_audiences_for_task` (lines 98–111): stakeholders as audiences when
present (a dict comprehension keyed by name), else the fixed default pair. -/
def audiencesFor (stakeholders : List Stakeholder) : List (PyStr × PyStr) :=
  if stakeholders.isEmpty then
    [("Executive".data,
      ("Senior leadership who needs high-level insights and decision points. " ++
        "Prefers concise, strategic information.").data),
     ("General Professional".data,
      ("Professional audience with business acumen but may not have deep " ++
        "technical expertise.").data)]
  else
    stakeholders.foldl
      (fun acc s =>
        let desc := "This audience cares about: ".data ++
          (List.intersperse ", ".data s.needs).flatten
        match getKey (acc.map (fun p => (p.1, Json.str p.2))) s.name with
        | some _ => acc.map (fun p => if p.1 = s.name then (p.1, desc) else p)
        | none => acc ++ [(s.name, desc)])
      []

/-- `AudienceEvaluator.evaluate` (lines 53–96) over the per-audience pipeline
outcomes: mean of the collected scores, `50.0` when none succeeded. -/
def AudienceEvaluator_evaluate (results : List (Except String Json)) :
    Except String Score := do
  let svals := results.filterMap itemScoreVal
  let ss ← mapE asPyNum svals
  let overall : ℚ := if ss.isEmpty then 50 else ss.sum / (ss.length : ℚ)
  .ok { dimension := "audience_clarity".data, score := overall, weight := 25 / 100,
        passed := decide ((60 : ℚ) ≤ overall) }

/-! ## RevisionEvaluator (`src/evaluators/revision_eval.py`) -/

/-- A feedback round of a revision chain (`src/tasks.py`). -/
structure RevisionRound where
  round_number : ℤ
  feedback : PyStr

/-- How many revision rounds the loop of `RevisionEvaluator.evaluate`
(lines 79–81) actually evaluates: it breaks once `i + 1` reaches the number
of generated revisions. -/
def evaluatedRounds (chain : List RevisionRound) (revisions : List PyStr) : ℕ :=
  min chain.length (revisions.length - 1)

/-- The score combination of `RevisionEvaluator.evaluate` (lines 102–113):
mean of the collected round scores, times 0.8 when more than one round was
scored and the last is more than 10 below the first; `50.0` when none. -/
def revisionCombine (ss : List ℚ) : ℚ :=
  match ss with
  | [] => 50
  | x :: xs =>
    let m := (x :: xs).sum / ((x :: xs).length : ℚ)
    if 1 < (x :: xs).length ∧ (x :: xs).getLast (by simp) - x < -10 then
      m * (8 / 10)
    else m

/-- `RevisionEvaluator.evaluate` (lines 54–124) over the per-round pipeline
outcomes (`results` holds one entry per evaluated round, in order). -/
def RevisionEvaluator_evaluate (chain : Option (List RevisionRound))
    (results : List (Except String Json)) : Except String Score :=
  match chain with
  | none =>
    .ok { dimension := "revision_coherence".data, score := 100, weight := 10 / 100,
          passed := true }
  | some rounds =>
    if rounds.isEmpty then
      .ok { dimension := "revision_coherence".data, score := 100, weight := 10 / 100,
            passed := true }
    else do
      let svals := results.filterMap itemScoreVal
      let ss ← mapE asPyNum svals
      let overall := revisionCombine ss
      .ok { dimension := "revision_coherence".data, score := overall, weight := 10 / 100,
            passed := decide ((60 : ℚ) ≤ overall) }

/-! ## Orchestration (`src/benchmark.py`)

The generation capability and the five evaluator outputs are oracle inputs:
what the orchestrator does with them — the `try` around generation, the keys
of the per-task result dict, and the run-level aggregation — is modelled
from the source.
-/

/-- One task of a run together with its oracle outcomes: the generation
result and the five dimension `Score`s the evaluators would return for the
generated text. -/
structure TaskRun where
  task_id : PyStr
  category : PyStr
  difficulty : PyStr
  gen : Except String PyStr
  dimScores : List Score

/-- `ProWriteBench._evaluate_single_task` (lines 83–136): a generation
failure is caught and recorded as an `error` field, leaving every score field
absent; otherwise the five scores are aggregated into the result record. -/
def evaluate_single_task (it : TaskRun) : TaskResult :=
  match it.gen with
  | .error e =>
    { task_id := it.task_id, category := it.category, difficulty := it.difficulty,
      error := some e.data }
  | .ok txt =>
    let agg := aggregate DEFAULT_WEIGHTS it.dimScores
    { task_id := it.task_id, category := it.category, difficulty := it.difficulty,
      generated_text := some txt,
      overall_score := some agg.overall_score,
      critical_failures := some agg.critical_failures,
      penalty_multiplier := some agg.penalty_multiplier,
      passed := some agg.passed }

/-- `ProWriteBench.run_benchmark` (lines 217–261): evaluate every task in
order, then aggregate the per-task results into the run summary. -/
def run_benchmark (items : List TaskRun) : List TaskResult × Except String RunSummary :=
  let task_results := items.map evaluate_single_task
  (task_results, aggregate_multiple_tasks task_results)

/-! ## Closed forms and spec-side definitions used by the claims -/

/-- The critical-failure tags the aggregate loop actually collects: those of
the Scores whose `passed` flag is false (and that carry the key). -/
def collectFailedTags : List Score → List PyStr
  | [] => []
  | s :: rest =>
    (if s.passed then [] else s.critical_failure.getD []) ++ collectFailedTags rest

/-- The plain weighted sum `Σ score_i * weight_i` with each weight looked up
by dimension name. -/
def weightedSum (weights : List (PyStr × ℚ)) : List Score → ℚ
  | [] => 0
  | s :: rest => s.score * weightOf weights s.dimension + weightedSum weights rest

/-- Spec-side collector for claim C1's wording: the `critical_failure` tags
of **every** dimension, flattened, regardless of the `passed` flag. -/
def specCollectAllTags : List Score → List PyStr
  | [] => []
  | s :: rest => s.critical_failure.getD [] ++ specCollectAllTags rest

/-- A text of `n` whitespace-delimited words. -/
def mkWords (n : ℕ) : PyStr := (List.replicate n ['w', ' ']).flatten

/-- Minimum of a list of rationals (Python `min`, 0 for the empty list which
the source never passes). -/
def listMinQ : List ℚ → ℚ
  | [] => 0
  | x :: xs => xs.foldl min x

/-- Mean of a list of rationals. -/
def meanQ (ss : List ℚ) : ℚ := ss.sum / (ss.length : ℚ)

/-- Population variance of a list of rationals. -/
def popVarQ (ss : List ℚ) : ℚ :=
  (ss.map (fun s => (s - meanQ ss) ^ 2)).sum / (ss.length : ℚ)

/-- Spec-side combination rule for claim C7's wording:
`max(0, 0.6*min(scores) + 0.4*mean(scores) - popstddev(scores)/10)`, the
population standard deviation being zero when only one score is present. -/
noncomputable def specStakeholderOverall (ss : List ℚ) : ℝ :=
  max 0 ((6 / 10 : ℝ) * (listMinQ ss : ℚ) + (4 / 10 : ℝ) * (meanQ ss : ℚ) -
    Real.sqrt ((popVarQ ss : ℚ) : ℝ) / 10)

/-! ## Theorems -/

/-- `Except` bind on a success. -/
theorem exceptBind_ok {a b : Type} (x : a) (f : a → Except String b) :
    (Except.ok x >>= f) = f x := rfl

/-- `Except` bind on a failure. -/
theorem exceptBind_error {a b : Type} (e : String) (f : a → Except String b) :
    ((Except.error e : Except String a) >>= f) = .error e := rfl

/-- The fold of `ScoreAggregator.aggregate` in closed form: weighted sum,
collected critical-failure tags (from non-passing Scores only), and the
conjunction of the `passed` flags. -/
theorem agg_foldl_spec (w : List (PyStr × ℚ)) (scores : List Score) (init : AggState) :
    (scores.foldl (aggStep w) init).weighted_sum = init.weighted_sum + weightedSum w scores ∧
    (scores.foldl (aggStep w) init).critical_failures =
      init.critical_failures ++ collectFailedTags scores ∧
    (scores.foldl (aggStep w) init).all_passed = (init.all_passed && scores.all (·.passed)) := by
  induction scores generalizing init with
  | nil => simp [weightedSum, collectFailedTags]
  | cons s rest ih =>
    have h := ih (aggStep w init s)
    simp only [List.foldl_cons]
    refine ⟨?_, ?_, ?_⟩
    · rw [h.1]; simp only [aggStep, weightedSum]; ring
    · rw [h.2.1]
      simp only [aggStep, collectFailedTags]
      cases hp : s.passed <;> cases hcf : s.critical_failure <;>
        simp [hp, hcf, List.append_assoc]
    · rw [h.2.2]
      simp only [aggStep, List.all_cons]
      cases hp : s.passed <;> simp [hp]

/-- C1 (amended).  `ScoreAggregator.aggregate` collects the
`critical_failure` tags only of the Scores whose `passed` flag is false into
one flat list; when that list is empty the returned `overall_score` is the
plain weighted sum (weights looked up by dimension name, default 0), rounded
to 2 decimals, and when it has `n ≥ 1` tags it is the weighted sum times
`0.5^n` (rounded); the returned `passed` flag is true iff every input
Score's `passed` flag is true, independent of the numeric penalty. -/
theorem c1_aggregate_penalty (w : List (PyStr × ℚ)) (scores : List Score) :
    (aggregate w scores).critical_failures = collectFailedTags scores ∧
    (aggregate w scores).passed = scores.all (·.passed) ∧
    (collectFailedTags scores = [] →
      (aggregate w scores).overall_score = round2 (weightedSum w scores)) ∧
    (collectFailedTags scores ≠ [] →
      (aggregate w scores).overall_score =
        round2 (weightedSum w scores * (1 / 2) ^ (collectFailedTags scores).length)) := by
  have h := agg_foldl_spec w scores {}
  constructor
  · simp only [aggregate]; rw [h.2.1]; simp
  constructor
  · simp only [aggregate]; rw [h.2.2]; simp
  constructor
  · intro hcf
    simp only [aggregate]
    rw [h.2.1] at *
    simp [hcf, h.1]
  · intro hcf
    simp only [aggregate]
    rw [h.2.1] at *
    simp only [List.nil_append] at *
    simp [hcf, h.1]

/-- C1 witness: a single failing constraint Score with one tag; the overall
score is the weighted sum halved once (and rounded). -/
theorem c1_aggregate_penalty_witness :
    collectFailedTags
      [{ dimension := "constraint_satisfaction".data, score := 100, weight := 3 / 10,
         passed := false, critical_failure := some ["x".data] }] ≠ [] ∧
    (aggregate DEFAULT_WEIGHTS
      [{ dimension := "constraint_satisfaction".data, score := 100, weight := 3 / 10,
         passed := false, critical_failure := some ["x".data] }]).overall_score =
      round2 (weightedSum DEFAULT_WEIGHTS
        [{ dimension := "constraint_satisfaction".data, score := 100, weight := 3 / 10,
           passed := false, critical_failure := some ["x".data] }] *
        (1 / 2) ^ (collectFailedTags
          [{ dimension := "constraint_satisfaction".data, score := 100, weight := 3 / 10,
             passed := false, critical_failure := some ["x".data] }]).length) := by
  have hne : collectFailedTags
      [{ dimension := "constraint_satisfaction".data, score := 100, weight := 3 / 10,
         passed := false, critical_failure := some ["x".data] }] ≠ [] := by
    simp [collectFailedTags]
  exact ⟨hne, (c1_aggregate_penalty DEFAULT_WEIGHTS _).2.2.2 hne⟩

/-- C1 counterexample: a Score with `passed = true` and a non-empty
`critical_failure` list.  The claim's "every dimension" collection sees one
tag and predicts the halved sum 15, but the aggregate ignores tags of
passing Scores and returns the plain weighted sum 30. -/
theorem c1_counterexample :
    specCollectAllTags
      [{ dimension := "constraint_satisfaction".data, score := 100, weight := 3 / 10,
         passed := true, critical_failure := some ["x".data] }] = ["x".data] ∧
    (aggregate DEFAULT_WEIGHTS
      [{ dimension := "constraint_satisfaction".data, score := 100, weight := 3 / 10,
         passed := true, critical_failure := some ["x".data] }]).overall_score = 30 ∧
    round2 (weightedSum DEFAULT_WEIGHTS
      [{ dimension := "constraint_satisfaction".data, score := 100, weight := 3 / 10,
         passed := true, critical_failure := some ["x".data] }] * (1 / 2) ^ 1) = 15 ∧
    (30 : ℚ) ≠ 15 := by
  refine ⟨by simp [specCollectAllTags], ?_, ?_, by norm_num⟩
  · simp [aggregate, aggStep, DEFAULT_WEIGHTS, weightOf, AggState.weighted_sum,
      AggState.critical_failures, round2, pyRound]
    norm_num
  · simp [weightedSum, weightOf, DEFAULT_WEIGHTS, round2, pyRound]
    norm_num

/-- C5: the tag classification scans the failure-message strings, so a
*required* element whose own text contains the word `forbidden` raises the
`contains_forbidden_content` tag although no forbidden element is declared
(let alone present).  With `required_elements = ["forbidden topics section"]`,
`forbidden_elements = []` and text `"hello"`, the evaluator returns both
tags, contradicting the claim's "exactly when at least one forbidden
substring does appear". -/
theorem c5_tag_classification_bug :
    (ConstraintEvaluator_evaluate
      { required_elements := ["forbidden topics section".data] } "hello".data).critical_failure =
      some ["missing_required_elements".data, "contains_forbidden_content".data] ∧
    ({ required_elements := ["forbidden topics section".data] } : Constraints).forbidden_elements
      = [] ∧
    (ConstraintEvaluator_evaluate
      { required_elements := ["forbidden topics section".data] } "hello".data).passed = false := by
  refine ⟨by decide, rfl, by decide⟩

/-- A text of `n` words has word count `n`. -/
theorem count_words_mkWords (n : ℕ) : count_words (mkWords n) = n := by
  suffices h : ∀ m, pySplit (mkWords m) = List.replicate m ['w'] by
    simp [count_words, h]
  intro m
  induction m with
  | zero => rfl
  | succ k ih =>
    simp only [mkWords, List.replicate, List.flatten_cons] at *
    simp [pySplit, splitAux, isPySpace, isReSpace] at *
    exact ih

/-- The word-count entry of the checks dict, when the word-count dict is
truthy, records exactly the `wordCountOk` verdict on the text's word count. -/
theorem runChecks_wc (c : Constraints) (text : PyStr) (d : List (PyStr × ℤ))
    (h : c.word_count = some d) (h2 : d.isEmpty = false) :
    (runConstraintChecks c text).word_count_passed =
      some (wordCountOk d (count_words text)) := by
  simp [runConstraintChecks, h, h2]

/-- C6.  With a truthy word-count dict, the check passes iff the number of
whitespace-delimited tokens `N` satisfies `min*0.9 ≤ N` and `N ≤ max*1.1`
(the latter only when `max` is present — an absent `max` is unbounded), both
boundaries inclusive; concretely with `min=200, max=350` a 180-word text
passes, a 179-word text fails, and a 385-word text passes. -/
theorem c6_word_count_tolerance :
    (∀ (c : Constraints) (text : PyStr) (d : List (PyStr × ℤ)),
      c.word_count = some d → d.isEmpty = false →
      ((runConstraintChecks c text).word_count_passed = some true ↔
        ((((intGet d "min".data).getD 0 : ℤ) : ℚ) * (9 / 10) ≤ (count_words text : ℚ) ∧
          ∀ mx, intGet d "max".data = some mx →
            (count_words text : ℚ) ≤ (mx : ℚ) * (11 / 10)))) ∧
    (runConstraintChecks
      { word_count := some [("min".data, 200), ("max".data, 350)] }
      (mkWords 180)).word_count_passed = some true ∧
    (runConstraintChecks
      { word_count := some [("min".data, 200), ("max".data, 350)] }
      (mkWords 179)).word_count_passed = some false ∧
    (runConstraintChecks
      { word_count := some [("min".data, 200), ("max".data, 350)] }
      (mkWords 385)).word_count_passed = some true ∧
    (runConstraintChecks
      { word_count := some [("min".data, 200)] }
      (mkWords 1000000)).word_count_passed = some true := by
  have hmin : intGet [("min".data, 200), ("max".data, 350)] "min".data = some 200 := rfl
  have hmax : intGet [("min".data, 200), ("max".data, 350)] "max".data = some 350 := rfl
  have hmin2 : intGet [("min".data, 200)] "min".data = some 200 := rfl
  have hmax2 : intGet [("min".data, 200)] "max".data = none := rfl
  refine ⟨?_, ?_, ?_, ?_, ?_⟩
  · intro c text d h h2
    rw [runChecks_wc c text d h h2]
    simp only [Option.some_inj]
    constructor
    · intro hok
      simp only [wordCountOk, Bool.and_eq_true, decide_eq_true_eq] at hok
      refine ⟨hok.1, ?_⟩
      intro mx hmx
      rw [hmx] at hok
      simpa using hok.2
    · intro ⟨h1, h2'⟩
      simp only [wordCountOk, Bool.and_eq_true, decide_eq_true_eq]
      refine ⟨h1, ?_⟩
      cases hmx : intGet d "max".data with
      | none => simp
      | some mx => simpa using h2' mx hmx
  · rw [runChecks_wc _ _ [("min".data, 200), ("max".data, 350)] rfl rfl, count_words_mkWords]
    simp only [wordCountOk, hmin, hmax, Option.getD_some]
    norm_num
  · rw [runChecks_wc _ _ [("min".data, 200), ("max".data, 350)] rfl rfl, count_words_mkWords]
    simp only [wordCountOk, hmin, hmax, Option.getD_some]
    norm_num
  · rw [runChecks_wc _ _ [("min".data, 200), ("max".data, 350)] rfl rfl, count_words_mkWords]
    simp only [wordCountOk, hmin, hmax, Option.getD_some]
    norm_num
  · rw [runChecks_wc _ _ [("min".data, 200)] rfl rfl, count_words_mkWords]
    simp only [wordCountOk, hmin2, hmax2, Option.getD_some]
    norm_num

/-- C6 witness: the general tolerance rule instantiated at
`min=200, max=350` and a 180-word text. -/
theorem c6_word_count_tolerance_witness :
    (runConstraintChecks
      { word_count := some [("min".data, 200), ("max".data, 350)] }
      (mkWords 180)).word_count_passed = some true ↔
      ((((intGet [("min".data, 200), ("max".data, 350)] "min".data).getD 0 : ℤ) : ℚ) * (9 / 10) ≤
          (count_words (mkWords 180) : ℚ) ∧
        ∀ mx, intGet [("min".data, 200), ("max".data, 350)] "max".data = some mx →
          (count_words (mkWords 180) : ℚ) ≤ (mx : ℚ) * (11 / 10)) :=
  c6_word_count_tolerance.1 _ _ _ rfl rfl

/-- C9.  If the judge call raises, or extraction/parsing of the judge reply
fails, `JudgeEvaluator.evaluate` does not propagate the error: it returns a
Score with dimension `professional_appropriateness`, score 50, `passed`
false, and the error string in the details (and no `critical_failure`
key). -/
theorem c9_judge_failure_isolation :
    (∀ (e : String), JudgeEvaluator_evaluate (.error e) =
      { dimension := "professional_appropriateness".data, score := 50, weight := 15 / 100,
        passed := false, critical_failure := none, error := some e.data }) ∧
    (∀ (resp : PyStr) (e : String), extractAndParse resp = .error e →
      JudgeEvaluator_evaluate (.ok resp) =
      { dimension := "professional_appropriateness".data, score := 50, weight := 15 / 100,
        passed := false, critical_failure := none, error := some e.data }) := by
  constructor
  · intro e; rfl
  · intro resp e h
    simp [JudgeEvaluator_evaluate, judgeHappy, exceptBind_ok, exceptBind_error, h]

/-- C9 witness: a reply with no JSON object in it yields the neutral score
with the `ValueError` message in the details. -/
theorem c9_judge_failure_isolation_witness :
    JudgeEvaluator_evaluate (.ok "nothing here".data) =
      { dimension := "professional_appropriateness".data, score := 50, weight := 15 / 100,
        passed := false, critical_failure := none,
        error := some "No JSON found in judge response".data } :=
  c9_judge_failure_isolation.2 "nothing here".data "No JSON found in judge response" rfl

/-- `mapE` preserves length on success. -/
theorem mapE_ok_length {a b : Type} (f : a → Except String b) :
    ∀ (l : List a) (out : List b), mapE f l = .ok out → out.length = l.length := by
  intro l
  induction l with
  | nil => intro out h; simp only [mapE] at h; cases h; rfl
  | cons x rest ih =>
    intro out h
    simp only [mapE] at h
    cases hf : f x with
    | error e => rw [hf, exceptBind_error] at h; exact absurd h (by simp)
    | ok y =>
      rw [hf, exceptBind_ok] at h
      cases hr : mapE f rest with
      | error e => rw [hr, exceptBind_error] at h; exact absurd h (by simp)
      | ok ys =>
        rw [hr, exceptBind_ok] at h
        cases h
        simp [ih ys hr]

/-- C4 (amended).  On the happy path of `JudgeEvaluator.evaluate`: a
sub-criterion absent from the parsed reply contributes the default 0;
the dimension score is the unweighted mean of the five sub-scores; a
critical-issue list produces the single tag
`inappropriate_professional_tone` exactly when it is non-empty **and
contains at least one truthy element** (so `[""]` produces no tag), and
`passed` holds iff the mean is at least 60 and no tag was produced. -/
theorem c4_judge_mean_and_critical :
    (∀ (ev : Json) (k : PyStr), dictGet ev k = .ok none → subScore ev k = .ok (Json.num 0 0)) ∧
    (∀ (items : List Json),
      criticalCond (Json.arr items) = .ok (!items.isEmpty && items.any pyTruthy)) ∧
    (∀ (resp : PyStr) (ev : Json) (qs : List ℚ) (items : List Json),
      extractAndParse resp = .ok ev →
      judgeScores ev = .ok qs →
      dictGet ev "critical_issues".data = .ok (some (Json.arr items)) →
      (JudgeEvaluator_evaluate (.ok resp)).score = qs.sum / 5 ∧
      (JudgeEvaluator_evaluate (.ok resp)).critical_failure =
        some (if !items.isEmpty && items.any pyTruthy then
          ["inappropriate_professional_tone".data] else []) ∧
      ((JudgeEvaluator_evaluate (.ok resp)).passed = true ↔
        ((60 : ℚ) ≤ qs.sum / 5 ∧ (!items.isEmpty && items.any pyTruthy) = false))) := by
  refine ⟨?_, ?_, ?_⟩
  · intro ev k h
    simp [subScore, h, exceptBind_ok]
  · intro items
    cases items with
    | nil => rfl
    | cons j rest => simp [criticalCond, pyTruthy, pyAny]
  · intro resp ev qs items hx hs hci
    have hlen : qs.length = 5 := mapE_ok_length _ judgeKeys qs hs
    have hcc : criticalCond (Json.arr items) = .ok (!items.isEmpty && items.any pyTruthy) := by
      cases items with
      | nil => rfl
      | cons j rest => simp [criticalCond, pyTruthy, pyAny]
    have hrun : JudgeEvaluator_evaluate (.ok resp) =
        { dimension := "professional_appropriateness".data
          score := qs.sum / 5
          weight := 15 / 100
          passed := decide ((60 : ℚ) ≤ qs.sum / 5) &&
            (if !items.isEmpty && items.any pyTruthy then
              (["inappropriate_professional_tone".data] : List PyStr) else []).isEmpty
          critical_failure := some (if !items.isEmpty && items.any pyTruthy then
            ["inappropriate_professional_tone".data] else []) } := by
      simp only [JudgeEvaluator_evaluate, judgeHappy, exceptBind_ok, hx, hs, hci, hcc,
        Option.getD_some, hlen]
      norm_num
    refine ⟨by rw [hrun], by rw [hrun], ?_⟩
    rw [hrun]
    cases hb : (!items.isEmpty && items.any pyTruthy) <;>
      simp [hb, decide_eq_true_eq]

/-- C4 witness: a reply whose five sub-criteria are all missing (each
defaulting to 0) and whose critical-issue list holds one truthy entry. -/
theorem c4_judge_mean_and_critical_witness :
    (JudgeEvaluator_evaluate
      (.ok "\x7b\"critical_issues\": [\"bad\"]\x7d".data)).score =
      [ratOfSci 0 0, ratOfSci 0 0, ratOfSci 0 0, ratOfSci 0 0, ratOfSci 0 0].sum / 5 ∧
    (JudgeEvaluator_evaluate
      (.ok "\x7b\"critical_issues\": [\"bad\"]\x7d".data)).critical_failure =
      some (if !([Json.str "bad".data].isEmpty) && [Json.str "bad".data].any pyTruthy then
        ["inappropriate_professional_tone".data] else []) ∧
    ((JudgeEvaluator_evaluate
      (.ok "\x7b\"critical_issues\": [\"bad\"]\x7d".data)).passed = true ↔
      ((60 : ℚ) ≤ [ratOfSci 0 0, ratOfSci 0 0, ratOfSci 0 0, ratOfSci 0 0,
          ratOfSci 0 0].sum / 5 ∧
        (!([Json.str "bad".data].isEmpty) && [Json.str "bad".data].any pyTruthy) = false)) :=
  c4_judge_mean_and_critical.2.2
    "\x7b\"critical_issues\": [\"bad\"]\x7d".data
    (Json.obj [("critical_issues".data, Json.arr [Json.str "bad".data])])
    [ratOfSci 0 0, ratOfSci 0 0, ratOfSci 0 0, ratOfSci 0 0, ratOfSci 0 0]
    [Json.str "bad".data] rfl rfl rfl

set_option maxRecDepth 8000 in
/-- C4 counterexample: the reply rates all five sub-criteria 80 and reports
the **non-empty** critical-issue list `[""]`.  The claim requires the tag
`inappropriate_professional_tone` and `passed = false`; the code tests
`any(critical_issues)`, finds no truthy element, emits no tag, and passes. -/
theorem c4_counterexample :
    ((extractAndParse ("\x7b\"tone_appropriateness\": \x7b\"score\": 80\x7d, " ++
        "\"diplomatic_language\": \x7b\"score\": 80\x7d, " ++
        "\"professional_formatting\": \x7b\"score\": 80\x7d, " ++
        "\"clarity\": \x7b\"score\": 80\x7d, " ++
        "\"completeness\": \x7b\"score\": 80\x7d, " ++
        "\"critical_issues\": [\"\"]\x7d").data).bind
      (fun ev => dictGet ev "critical_issues".data)) = .ok (some (Json.arr [Json.str []])) ∧
    (JudgeEvaluator_evaluate (.ok ("\x7b\"tone_appropriateness\": \x7b\"score\": 80\x7d, " ++
        "\"diplomatic_language\": \x7b\"score\": 80\x7d, " ++
        "\"professional_formatting\": \x7b\"score\": 80\x7d, " ++
        "\"clarity\": \x7b\"score\": 80\x7d, " ++
        "\"completeness\": \x7b\"score\": 80\x7d, " ++
        "\"critical_issues\": [\"\"]\x7d").data)).critical_failure = some [] ∧
    (JudgeEvaluator_evaluate (.ok ("\x7b\"tone_appropriateness\": \x7b\"score\": 80\x7d, " ++
        "\"diplomatic_language\": \x7b\"score\": 80\x7d, " ++
        "\"professional_formatting\": \x7b\"score\": 80\x7d, " ++
        "\"clarity\": \x7b\"score\": 80\x7d, " ++
        "\"completeness\": \x7b\"score\": 80\x7d, " ++
        "\"critical_issues\": [\"\"]\x7d").data)).passed = true := by
  refine ⟨rfl, rfl, ?_⟩
  have hev : extractAndParse ("\x7b\"tone_appropriateness\": \x7b\"score\": 80\x7d, " ++
      "\"diplomatic_language\": \x7b\"score\": 80\x7d, " ++
      "\"professional_formatting\": \x7b\"score\": 80\x7d, " ++
      "\"clarity\": \x7b\"score\": 80\x7d, " ++
      "\"completeness\": \x7b\"score\": 80\x7d, " ++
      "\"critical_issues\": [\"\"]\x7d").data = .ok
      (Json.obj [("tone_appropriateness".data, Json.obj [("score".data, Json.num 80 0)]),
        ("diplomatic_language".data, Json.obj [("score".data, Json.num 80 0)]),
        ("professional_formatting".data, Json.obj [("score".data, Json.num 80 0)]),
        ("clarity".data, Json.obj [("score".data, Json.num 80 0)]),
        ("completeness".data, Json.obj [("score".data, Json.num 80 0)]),
        ("critical_issues".data, Json.arr [Json.str []])]) := rfl
  have hqs : judgeScores
      (Json.obj [("tone_appropriateness".data, Json.obj [("score".data, Json.num 80 0)]),
        ("diplomatic_language".data, Json.obj [("score".data, Json.num 80 0)]),
        ("professional_formatting".data, Json.obj [("score".data, Json.num 80 0)]),
        ("clarity".data, Json.obj [("score".data, Json.num 80 0)]),
        ("completeness".data, Json.obj [("score".data, Json.num 80 0)]),
        ("critical_issues".data, Json.arr [Json.str []])]) = .ok
      [ratOfSci 80 0, ratOfSci 80 0, ratOfSci 80 0, ratOfSci 80 0, ratOfSci 80 0] := rfl
  have hci : dictGet
      (Json.obj [("tone_appropriateness".data, Json.obj [("score".data, Json.num 80 0)]),
        ("diplomatic_language".data, Json.obj [("score".data, Json.num 80 0)]),
        ("professional_formatting".data, Json.obj [("score".data, Json.num 80 0)]),
        ("clarity".data, Json.obj [("score".data, Json.num 80 0)]),
        ("completeness".data, Json.obj [("score".data, Json.num 80 0)]),
        ("critical_issues".data, Json.arr [Json.str []])]) "critical_issues".data =
      .ok (some (Json.arr [Json.str []])) := rfl
  have hcc : criticalCond (Json.arr [Json.str []]) = .ok false := rfl
  simp only [JudgeEvaluator_evaluate, judgeHappy, exceptBind_ok, hev, hqs, hci, hcc,
    Option.getD_some]
  simp only [Bool.false_eq_true, if_false, List.isEmpty_nil, Bool.and_true,
    decide_eq_true_eq]
  norm_num [ratOfSci]

/-- Any success of `judgeHappy` carries a `critical_failure` key whose
emptiness is conjoined into `passed`. -/
theorem judgeHappy_ok_shape (response : Except String PyStr) (s : Score)
    (h : judgeHappy response = .ok s) :
    ∃ cf, s.critical_failure = some cf ∧
      s.passed = (decide ((60 : ℚ) ≤ s.score) && cf.isEmpty) := by
  unfold judgeHappy at h
  rcases response with e | resp
  · rw [exceptBind_error] at h; exact absurd h (by simp)
  · rw [exceptBind_ok] at h
    cases hx : extractAndParse resp with
    | error e => rw [hx, exceptBind_error] at h; exact absurd h (by simp)
    | ok ev =>
      rw [hx, exceptBind_ok] at h
      cases hs : judgeScores ev with
      | error e => rw [hs, exceptBind_error] at h; exact absurd h (by simp)
      | ok qs =>
        rw [hs, exceptBind_ok] at h
        cases hd : dictGet ev "critical_issues".data with
        | error e => rw [hd, exceptBind_error] at h; exact absurd h (by simp)
        | ok cio =>
          rw [hd, exceptBind_ok] at h
          simp only [] at h
          cases hc : criticalCond (cio.getD (Json.arr [])) with
          | error e => rw [hc, exceptBind_error] at h; exact absurd h (by simp)
          | ok cond =>
            rw [hc, exceptBind_ok] at h
            cases h
            exact ⟨_, rfl, rfl⟩

/-- C10.  Every Score produced by one of the five evaluators with a
non-empty `critical_failure` list has `passed = false` (the three fan-out
evaluators never put the key in their details at all); the converse fails:
a word-count-only constraint failure yields `passed = false` with an empty
`critical_failure` list. -/
theorem c10_critical_implies_not_passed :
    (∀ (c : Constraints) (text : PyStr),
      (ConstraintEvaluator_evaluate c text).critical_failure.getD [] ≠ [] →
      (ConstraintEvaluator_evaluate c text).passed = false) ∧
    (∀ (resp : Except String PyStr),
      (JudgeEvaluator_evaluate resp).critical_failure.getD [] ≠ [] →
      (JudgeEvaluator_evaluate resp).passed = false) ∧
    (∀ (sh : List Stakeholder) (results : List (Except String Json))
      (r : StakeholderResult),
      StakeholderEvaluator_evaluate sh results = .ok r → r.critical_failure = none) ∧
    (∀ (results : List (Except String Json)) (r : Score),
      AudienceEvaluator_evaluate results = .ok r → r.critical_failure = none) ∧
    (∀ (chain : Option (List RevisionRound)) (results : List (Except String Json))
      (r : Score),
      RevisionEvaluator_evaluate chain results = .ok r → r.critical_failure = none) ∧
    ((ConstraintEvaluator_evaluate { word_count := some [("min".data, 100)] }
        "hello".data).passed = false ∧
      (ConstraintEvaluator_evaluate { word_count := some [("min".data, 100)] }
        "hello".data).critical_failure = some []) := by
  refine ⟨?_, ?_, ?_, ?_, ?_, ?_⟩
  · intro c text h
    simp only [ConstraintEvaluator_evaluate, Option.getD_some] at h ⊢
    by_cases hf : (runConstraintChecks c text).failures.isEmpty
    · exact absurd (by simp [classifyCritical, hf]) h
    · simpa using hf
  · intro resp h
    cases hh : judgeHappy resp with
    | error e =>
      simp only [JudgeEvaluator_evaluate, hh] at h
      simp at h
    | ok s =>
      obtain ⟨cf, hcf, hp⟩ := judgeHappy_ok_shape resp s hh
      simp only [JudgeEvaluator_evaluate, hh] at h ⊢
      rw [hcf] at h
      simp only [Option.getD_some] at h
      rw [hp]
      simp [List.isEmpty_iff, h]
  · intro sh results r h
    unfold StakeholderEvaluator_evaluate at h
    split at h
    · cases h; rfl
    · simp only [] at h
      cases hm : mapE asPyNum (results.filterMap itemScoreVal) with
      | error e => rw [hm, exceptBind_error] at h; exact absurd h (by simp)
      | ok ss => rw [hm, exceptBind_ok] at h; cases h; rfl
  · intro results r h
    unfold AudienceEvaluator_evaluate at h
    simp only [] at h
    cases hm : mapE asPyNum (results.filterMap itemScoreVal) with
    | error e => rw [hm, exceptBind_error] at h; exact absurd h (by simp)
    | ok ss => rw [hm, exceptBind_ok] at h; cases h; rfl
  · intro chain results r h
    unfold RevisionEvaluator_evaluate at h
    rcases chain with _ | rounds
    · cases h; rfl
    · by_cases hr : rounds.isEmpty = true
      · simp only [if_pos hr] at h; cases h; rfl
      · simp only [if_neg hr] at h
        cases hm : mapE asPyNum (results.filterMap itemScoreVal) with
        | error e => rw [hm, exceptBind_error] at h; exact absurd h (by simp)
        | ok ss => rw [hm, exceptBind_ok] at h; cases h; rfl
  · have hwc : wordCountOk [("min".data, 100)] 1 = false := by
      have hform : wordCountOk [("min".data, 100)] 1 =
          (decide ((((100 : ℤ) : ℚ)) * (9 / 10) ≤ ((1 : ℕ) : ℚ)) && true) := rfl
      rw [hform]
      simp only [Bool.and_true, decide_eq_false_iff_not]
      push_cast
      norm_num
    have hn : count_words "hello".data = 1 := rfl
    have hrun : runConstraintChecks { word_count := some [("min".data, 100)] }
        "hello".data =
        { word_count_passed := some false, required_found := [], forbidden_found := [],
          failures := [wcFailMsg [("min".data, 100)] 1] } := by
      simp [runConstraintChecks, hn, hwc]
    constructor
    · simp [ConstraintEvaluator_evaluate, hrun]
    · simp only [ConstraintEvaluator_evaluate, hrun]
      have : classifyCritical [wcFailMsg [("min".data, 100)] 1] = [] := by decide
      rw [this]

/-- C10 witness: the constraint-evaluator half of the invariant at a
concrete input whose `critical_failure` list is non-empty. -/
theorem c10_critical_implies_not_passed_witness :
    (ConstraintEvaluator_evaluate { required_elements := ["kpi".data] }
      "hello".data).passed = false :=
  c10_critical_implies_not_passed.1
    { required_elements := ["kpi".data] } "hello".data (by decide)

/-- C8.  `RevisionEvaluator.evaluate` auto-passes at 100 without a revision
chain; otherwise the dimension score is the mean of the successfully judged
rounds' scores, multiplied by 0.8 exactly when at least two rounds were
scored and the last round's score is more than 10 points below the first's,
with 50 as fallback when no round was scored, and `passed` iff the final
value is at least 60; concretely `[80, 60]` gives 56 and `[80, 75]` gives
77.5. -/
theorem c8_revision_trend_penalty :
    (∀ results, RevisionEvaluator_evaluate none results = .ok
        { dimension := "revision_coherence".data, score := 100, weight := 10 / 100,
          passed := true } ∧
      RevisionEvaluator_evaluate (some []) results = .ok
        { dimension := "revision_coherence".data, score := 100, weight := 10 / 100,
          passed := true }) ∧
    (∀ (rounds : List RevisionRound) (results : List (Except String Json)) (ss : List ℚ),
      rounds ≠ [] →
      mapE asPyNum (results.filterMap itemScoreVal) = .ok ss →
      RevisionEvaluator_evaluate (some rounds) results = .ok
        { dimension := "revision_coherence".data, score := revisionCombine ss,
          weight := 10 / 100, passed := decide ((60 : ℚ) ≤ revisionCombine ss) }) ∧
    (∀ (x : ℚ) (xs : List ℚ),
      revisionCombine (x :: xs) =
        (if 2 ≤ (x :: xs).length ∧ x - (x :: xs).getLast (by simp) > 10 then
          meanQ (x :: xs) * (8 / 10) else meanQ (x :: xs))) ∧
    revisionCombine [] = 50 ∧
    revisionCombine [80, 60] = 56 ∧
    revisionCombine [80, 75] = 155 / 2 := by
  refine ⟨?_, ?_, ?_, rfl, ?_, ?_⟩
  · intro results; exact ⟨rfl, rfl⟩
  · intro rounds results ss hne hm
    unfold RevisionEvaluator_evaluate
    have hie : rounds.isEmpty = false := by
      cases rounds with
      | nil => exact absurd rfl hne
      | cons a l => rfl
    simp only [hie, Bool.false_eq_true, if_false]
    rw [hm, exceptBind_ok]
  · intro x xs
    simp only [revisionCombine, meanQ]
    rcases Nat.lt_or_ge 1 (x :: xs).length with hl | hl
    · have h2 : 2 ≤ (x :: xs).length := hl
      by_cases hd : (x :: xs).getLast (by simp) - x < -10
      · rw [if_pos ⟨hl, hd⟩, if_pos ⟨h2, by linarith⟩]
      · rw [if_neg ?_, if_neg ?_]
        · rintro ⟨-, hgt⟩; exact hd (by linarith)
        · rintro ⟨-, hlt⟩; exact hd hlt
    · have hnot : ¬ (1 < (x :: xs).length ∧ (x :: xs).getLast (by simp) - x < -10) := by
        rintro ⟨h1, -⟩; omega
      have hnot2 : ¬ (2 ≤ (x :: xs).length ∧ x - (x :: xs).getLast (by simp) > 10) := by
        rintro ⟨h1, -⟩; omega
      rw [if_neg hnot, if_neg hnot2]
  · show revisionCombine [80, 60] = 56
    have h : revisionCombine [80, 60] =
        (if 1 < 2 ∧ (60 : ℚ) - 80 < -10 then ((80 : ℚ) + (60 + 0)) / 2 * (8 / 10)
          else ((80 : ℚ) + (60 + 0)) / 2) := by
      simp [revisionCombine, List.getLast]
    rw [h, if_pos ⟨by norm_num, by norm_num⟩]
    norm_num
  · show revisionCombine [80, 75] = 155 / 2
    have h : revisionCombine [80, 75] =
        (if 1 < 2 ∧ (75 : ℚ) - 80 < -10 then ((80 : ℚ) + (75 + 0)) / 2 * (8 / 10)
          else ((80 : ℚ) + (75 + 0)) / 2) := by
      simp [revisionCombine, List.getLast]
    rw [h, if_neg (by rintro ⟨-, hlt⟩; norm_num at hlt)]
    norm_num

/-- C8 witness: two judged rounds scoring 80 then 60 (a drop of 20) yield
the penalized mean 56. -/
theorem c8_revision_trend_penalty_witness :
    RevisionEvaluator_evaluate
      (some [⟨1, "f".data⟩, ⟨2, "g".data⟩])
      [.ok (Json.obj [("score".data, Json.num 80 0)]),
       .ok (Json.obj [("score".data, Json.num 60 0)])] = .ok
      { dimension := "revision_coherence".data,
        score := revisionCombine [ratOfSci 80 0, ratOfSci 60 0],
        weight := 10 / 100,
        passed := decide ((60 : ℚ) ≤ revisionCombine [ratOfSci 80 0, ratOfSci 60 0]) } ∧
    revisionCombine [ratOfSci 80 0, ratOfSci 60 0] = 56 := by
  constructor
  · exact c8_revision_trend_penalty.2.1 _ _ _ (by simp) rfl
  · have h80 : ratOfSci 80 0 = 80 := by norm_num [ratOfSci]
    have h60 : ratOfSci 60 0 = 60 := by norm_num [ratOfSci]
    rw [h80, h60]
    exact c8_revision_trend_penalty.2.2.2.2.1

/-- C7 (amended).  `StakeholderEvaluator.evaluate` returns 100 with
`passed` when no stakeholder is declared, 50 when every per-stakeholder
judgment failed, and `passed ↔ score ≥ 60` otherwise.  With at least **two**
judged scores the dimension score is exactly the spec formula
`max(0, 0.6*min + 0.4*mean - popstddev/10)`; with exactly **one** judged
score the floor and the penalty are skipped and the score is
`0.6*s + 0.4*s`, unfloored. -/
theorem c7_stakeholder_combination :
    (∀ results, (StakeholderEvaluator_evaluate [] results).map (·.score) = .ok (100 : ℝ) ∧
      ∀ r, StakeholderEvaluator_evaluate [] results = .ok r → r.passed) ∧
    (∀ (sh : List Stakeholder) (results : List (Except String Json)) (r : StakeholderResult),
      sh ≠ [] → StakeholderEvaluator_evaluate sh results = .ok r →
      (r.passed ↔ (60 : ℝ) ≤ r.score)) ∧
    (∀ (sh : List Stakeholder) (results : List (Except String Json)),
      sh ≠ [] → mapE asPyNum (results.filterMap itemScoreVal) = .ok [] →
      (StakeholderEvaluator_evaluate sh results).map (·.score) = .ok (50 : ℝ)) ∧
    (∀ (sh : List Stakeholder) (results : List (Except String Json)) (ss : List ℚ),
      sh ≠ [] → mapE asPyNum (results.filterMap itemScoreVal) = .ok ss →
      2 ≤ ss.length →
      (StakeholderEvaluator_evaluate sh results).map (·.score) =
        .ok (specStakeholderOverall ss)) ∧
    (∀ (sh : List Stakeholder) (results : List (Except String Json)) (s : ℚ),
      sh ≠ [] → mapE asPyNum (results.filterMap itemScoreVal) = .ok [s] →
      (StakeholderEvaluator_evaluate sh results).map (·.score) =
        .ok ((s * (6 / 10) + s * (4 / 10) : ℚ) : ℝ)) := by
  have hne_isEmpty : ∀ (sh : List Stakeholder), sh ≠ [] → sh.isEmpty = false := by
    intro sh h
    cases sh with
    | nil => exact absurd rfl h
    | cons a l => rfl
  refine ⟨?_, ?_, ?_, ?_, ?_⟩
  · intro results
    constructor
    · rfl
    · intro r h
      unfold StakeholderEvaluator_evaluate at h
      simp only [List.isEmpty_nil, if_true] at h
      cases h
      trivial
  · intro sh results r hsh h
    unfold StakeholderEvaluator_evaluate at h
    simp only [hne_isEmpty sh hsh, Bool.false_eq_true, if_false] at h
    cases hm : mapE asPyNum (results.filterMap itemScoreVal) with
    | error e => rw [hm, exceptBind_error] at h; exact absurd h (by simp)
    | ok ss => rw [hm, exceptBind_ok] at h; cases h; exact Iff.rfl
  · intro sh results hsh hm
    unfold StakeholderEvaluator_evaluate
    simp only [hne_isEmpty sh hsh, Bool.false_eq_true, if_false]
    rw [hm, exceptBind_ok]
    rfl
  · intro sh results ss hsh hm hlen
    unfold StakeholderEvaluator_evaluate
    simp only [hne_isEmpty sh hsh, Bool.false_eq_true, if_false]
    rw [hm, exceptBind_ok]
    simp only [Except.map]
    congr 1
    cases ss with
    | nil => simp at hlen
    | cons x xs =>
      have hlt : 1 < (x :: xs).length := hlen
      simp only [stakeholderCombine, specStakeholderOverall, listMinQ, meanQ, popVarQ,
        if_pos hlt]
      congr 1
      push_cast
      ring
  · intro sh results s hsh hm
    unfold StakeholderEvaluator_evaluate
    simp only [hne_isEmpty sh hsh, Bool.false_eq_true, if_false]
    rw [hm, exceptBind_ok]
    simp only [Except.map]
    congr 1
    simp only [stakeholderCombine]
    norm_num

/-- C7 witness: two judged scores 90 and 30; the evaluator's score equals
the spec formula (which works out to `max 0 (42 - √900/10) = 39`). -/
theorem c7_stakeholder_combination_witness :
    (StakeholderEvaluator_evaluate
      [⟨"A".data, [], []⟩, ⟨"B".data, [], []⟩]
      [.ok (Json.obj [("score".data, Json.num 90 0)]),
       .ok (Json.obj [("score".data, Json.num 30 0)])]).map (·.score) =
      .ok (specStakeholderOverall [ratOfSci 90 0, ratOfSci 30 0]) :=
  c7_stakeholder_combination.2.2.2.1 _ _ _ (by simp) rfl (by simp)

/-- C7 counterexample: a single judged score of −10 (scores are not
clamped).  The claim's formula `max(0, 0.6*min + 0.4*mean - popstddev/10)`
gives 0, but the code applies no floor in the single-score branch and the
dimension score is −10. -/
theorem c7_counterexample :
    (StakeholderEvaluator_evaluate [⟨"A".data, [], []⟩]
      [.ok (Json.obj [("score".data, Json.num (-10) 0)])]).map (·.score) =
      .ok ((-10 : ℝ)) ∧
    specStakeholderOverall [ratOfSci (-10) 0] = 0 ∧
    ((-10 : ℝ) ≠ 0) := by
  refine ⟨?_, ?_, by norm_num⟩
  · have h := c7_stakeholder_combination.2.2.2.2
      [⟨"A".data, [], []⟩]
      [.ok (Json.obj [("score".data, Json.num (-10) 0)])]
      (ratOfSci (-10) 0) (by simp) rfl
    rw [h]
    have : ratOfSci (-10) 0 = -10 := by norm_num [ratOfSci]
    rw [this]
    norm_num
  · have hr : ratOfSci (-10) 0 = -10 := by norm_num [ratOfSci]
    simp only [specStakeholderOverall, hr, listMinQ, meanQ, popVarQ]
    norm_num

/-- Reading `overall_score` over a result list fails with the `KeyError` as
soon as any result lacks the key. -/
theorem mapE_overall_error (results : List TaskResult)
    (h : ∃ r ∈ results, r.overall_score = none) :
    mapE (fun r => reqKey r.overall_score "overall_score") results =
      .error "KeyError: overall_score" := by
  induction results with
  | nil => simp at h
  | cons r rest ih =>
    simp only [mapE]
    cases hr : r.overall_score with
    | none =>
      rw [show reqKey (none : Option ℚ) "overall_score" =
          Except.error "KeyError: overall_score" from rfl, exceptBind_error]
    | some v =>
      have hrest : ∃ r' ∈ rest, r'.overall_score = none := by
        obtain ⟨r', hmem, hnone⟩ := h
        rcases List.mem_cons.mp hmem with rfl | hmem2
        · rw [hr] at hnone; exact absurd hnone (by simp)
        · exact ⟨r', hmem2, hnone⟩
      rw [show reqKey (some v) "overall_score" = Except.ok v from rfl,
        exceptBind_ok, ih hrest, exceptBind_error]

/-- Reading a present key over a whole result list succeeds. -/
theorem mapE_reqKey_ok {a : Type} (f : TaskResult → Option a) (name : String)
    (results : List TaskResult) (h : ∀ r ∈ results, f r ≠ none) :
    ∃ out, mapE (fun r => reqKey (f r) name) results = .ok out := by
  induction results with
  | nil => exact ⟨[], rfl⟩
  | cons r rest ih =>
    obtain ⟨v, hv⟩ := Option.ne_none_iff_exists'.mp (h r (by simp))
    obtain ⟨out, hout⟩ := ih (fun r' hm => h r' (by simp [hm]))
    refine ⟨v :: out, ?_⟩
    simp only [mapE]
    rw [show reqKey (f r) name = .ok v by rw [hv]; rfl, exceptBind_ok, hout, exceptBind_ok]

/-- C2 (amended).  A generation failure is caught and recorded on the task's
result as an `error` field with every score field absent, and the run loop
produces a result for every task regardless of earlier failures.  But the
run summary does **not** exclude errored tasks: it reads `overall_score`
from every result, so with any errored task present the whole summary
computation fails with a `KeyError`, and with none the denominator is the
full task count. -/
theorem c2_generation_failure_handling :
    (∀ (it : TaskRun) (e : String), it.gen = .error e →
      evaluate_single_task it =
        { task_id := it.task_id, category := it.category, difficulty := it.difficulty,
          error := some e.data }) ∧
    (∀ items, (run_benchmark items).1 = items.map evaluate_single_task) ∧
    (∀ (results : List TaskResult), (∃ r ∈ results, r.overall_score = none) →
      aggregate_multiple_tasks results = .error "KeyError: overall_score") ∧
    (∀ (results : List TaskResult),
      (∀ r ∈ results, r.overall_score ≠ none) → (∀ r ∈ results, r.passed ≠ none) →
      ∃ s, aggregate_multiple_tasks results = .ok s ∧ s.total_tasks = results.length) := by
  refine ⟨?_, ?_, ?_, ?_⟩
  · intro it e h
    unfold evaluate_single_task
    rw [h]
  · intro items; rfl
  · intro results h
    have hne : results.length ≠ 0 := by
      obtain ⟨r, hmem, -⟩ := h
      cases results with
      | nil => simp at hmem
      | cons a l => simp
    unfold aggregate_multiple_tasks
    rw [if_neg hne, mapE_overall_error results h, exceptBind_error]
  · intro results hov hp
    cases hlen : results.length with
    | zero =>
      refine ⟨{ average_score := 0, median_score := 0, pass_rate := 0, total_tasks := 0 }, ?_, rfl⟩
      unfold aggregate_multiple_tasks
      rw [if_pos hlen]
    | succ n =>
      obtain ⟨scores, hscores⟩ := mapE_reqKey_ok (·.overall_score) "overall_score" results hov
      obtain ⟨flags, hflags⟩ := mapE_reqKey_ok (·.passed) "passed" results hp
      unfold aggregate_multiple_tasks
      rw [if_neg (by rw [hlen]; exact Nat.succ_ne_zero n), hscores, exceptBind_ok,
        hflags, exceptBind_ok]
      refine ⟨_, rfl, ?_⟩
      exact hlen

/-- C2 witness: the generation-failure record and the `KeyError` at concrete
inputs, obtained from the amended theorem. -/
theorem c2_generation_failure_handling_witness :
    evaluate_single_task
      { task_id := "MS-001".data, category := "multi_stakeholder".data,
        difficulty := "easy".data, gen := .error "boom", dimScores := [] } =
      { task_id := "MS-001".data, category := "multi_stakeholder".data,
        difficulty := "easy".data, error := some "boom".data } ∧
    aggregate_multiple_tasks
      [{ task_id := "MS-001".data, category := "multi_stakeholder".data,
         difficulty := "easy".data, error := some "boom".data }] =
      .error "KeyError: overall_score" := by
  constructor
  · exact c2_generation_failure_handling.1 _ "boom" rfl
  · exact c2_generation_failure_handling.2.2.1 _
      ⟨{ task_id := "MS-001".data, category := "multi_stakeholder".data,
         difficulty := "easy".data, error := some "boom".data }, by simp, rfl⟩

/-- C2 counterexample: a run of two tasks whose first generation raises.
The errored task does appear with an `error` field and no score, but the
run summary is a `KeyError`, not a statistic over the one scored task as the
claim's exclusion rule predicts. -/
theorem c2_counterexample :
    ((run_benchmark
      [{ task_id := "MS-001".data, category := "multi_stakeholder".data,
         difficulty := "easy".data, gen := .error "boom", dimScores := [] },
       { task_id := "MS-002".data, category := "multi_stakeholder".data,
         difficulty := "easy".data, gen := .ok "text".data, dimScores := [] }]).1.map
        (·.error) = [some "boom".data, none]) ∧
    ((run_benchmark
      [{ task_id := "MS-001".data, category := "multi_stakeholder".data,
         difficulty := "easy".data, gen := .error "boom", dimScores := [] },
       { task_id := "MS-002".data, category := "multi_stakeholder".data,
         difficulty := "easy".data, gen := .ok "text".data, dimScores := [] }]).1.map
        (·.overall_score.isSome) = [false, true]) ∧
    (run_benchmark
      [{ task_id := "MS-001".data, category := "multi_stakeholder".data,
         difficulty := "easy".data, gen := .error "boom", dimScores := [] },
       { task_id := "MS-002".data, category := "multi_stakeholder".data,
         difficulty := "easy".data, gen := .ok "text".data, dimScores := [] }]).2 =
      .error "KeyError: overall_score" :=
  ⟨rfl, rfl, rfl⟩

/-- A position that does not start with a backtick cannot start a fenced
match. -/
theorem tryFenceAt_cons_ne (c : Char) (l : List Char) (h : c ≠ btick) :
    tryFenceAt (c :: l) = none := by
  unfold tryFenceAt
  rw [show stripLit [btick, btick, btick] (c :: l) = none by
    simp only [stripLit, if_neg (fun hh : btick = c => h hh.symm)]]

/-- The fenced search skips any backtick-free prefix. -/
theorem searchFence_append (p s : List Char) (h : ∀ c ∈ p, c ≠ btick) :
    searchFence (p ++ s) = searchFence s := by
  induction p with
  | nil => rfl
  | cons c p' ih =>
    simp only [List.cons_append, searchFence,
      tryFenceAt_cons_ne c _ (h c (by simp))]
    exact ih (fun c' hc' => h c' (by simp [hc']))

/-- A backtick-free string has no fenced match at all. -/
theorem searchFence_none (s : List Char) (h : ∀ c ∈ s, c ≠ btick) :
    searchFence s = none := by
  have := searchFence_append s [] h
  simpa using this

/-- After a closing brace inside a backtick-free body, no fence follows. -/
theorem fenceFollows_inner (l r : List Char) (h : ∀ c ∈ l, c ≠ btick) :
    fenceFollows (l ++ cb :: r) = false := by
  induction l with
  | nil =>
    simp only [List.nil_append]
    unfold fenceFollows
    rw [show List.dropWhile isReSpace (cb :: r) = cb :: r by
      rw [List.dropWhile_cons_of_neg (by decide)]]
    rw [show stripLit [btick, btick, btick] (cb :: r) = none by
      simp only [stripLit, if_neg (by decide : ¬ btick = cb)]]
  | cons x l' ih =>
    have hx : x ≠ btick := h x (by simp)
    have hl' : ∀ c ∈ l', c ≠ btick := fun c hc => h c (by simp [hc])
    by_cases hsp : isReSpace x = true
    · unfold fenceFollows at *
      rw [List.cons_append, List.dropWhile_cons_of_pos hsp]
      exact ih hl'
    · unfold fenceFollows
      rw [List.cons_append, List.dropWhile_cons_of_neg hsp]
      rw [show stripLit [btick, btick, btick] (x :: (l' ++ cb :: r)) = none by
        simp only [stripLit, if_neg (fun hh : btick = x => hx hh.symm)]]

/-- The lazy body scan stops exactly at the closing brace that precedes the
fence, returning the backtick-free body unchanged. -/
theorem scanBody_exact (m rest : List Char) (h : ∀ c ∈ m, c ≠ btick)
    (hf : fenceFollows rest = true) :
    scanBody (m ++ cb :: rest) = some m := by
  induction m with
  | nil =>
    rw [List.nil_append]
    unfold scanBody
    rw [if_pos ⟨rfl, hf⟩]
  | cons x m' ih =>
    have hm' : ∀ c ∈ m', c ≠ btick := fun c hc => h c (by simp [hc])
    rw [List.cons_append]
    unfold scanBody
    rw [if_neg ?hneg, ih hm']
    · rfl
    case hneg =>
      rintro ⟨-, hfence⟩
      rw [fenceFollows_inner m' rest hm'] at hfence
      exact absurd hfence (by simp)

/-- Dropping while not equal to `a` over an `a`-free prefix lands exactly on
the first `a`. -/
theorem dropWhile_ne_append (q t : List Char) (a : Char) (hq : ∀ c ∈ q, c ≠ a) :
    List.dropWhile (· ≠ a) (q ++ a :: t) = a :: t := by
  induction q with
  | nil => rw [List.nil_append, List.dropWhile_cons_of_neg (by simp)]
  | cons x q' ih =>
    rw [List.cons_append, List.dropWhile_cons_of_pos (by
      simp only [ne_eq, decide_eq_true_eq]
      exact hq x (by simp))]
    exact ih (fun c hc => hq c (by simp [hc]))

/-- The greedy pattern takes the span from the first opening brace to the
last closing brace. -/
theorem greedyBrace_exact (pre mid suf : List Char)
    (hpre : ∀ c ∈ pre, c ≠ ob) (hsuf : ∀ c ∈ suf, c ≠ cb) :
    greedyBrace (pre ++ ob :: mid ++ cb :: suf) = some (ob :: mid ++ [cb]) := by
  have hdrop := dropWhile_ne_append pre (mid ++ cb :: suf) ob hpre
  have hrev := dropWhile_ne_append suf.reverse mid.reverse cb
    (fun c hc => hsuf c (List.mem_reverse.mp hc))
  unfold greedyBrace
  rw [show pre ++ (ob :: mid) ++ cb :: suf = pre ++ ob :: (mid ++ cb :: suf) from by simp]
  simp only [hdrop]
  rw [show (mid ++ cb :: suf).reverse = suf.reverse ++ cb :: mid.reverse from by simp]
  simp only [hrev]
  simp

/-- `scanBody` can never succeed without a closing brace in its input. -/
theorem scanBody_none (l : List Char) (h : ∀ c ∈ l, c ≠ cb) :
    scanBody l = none := by
  induction l with
  | nil => rfl
  | cons c rest ih =>
    simp only [scanBody]
    rw [if_neg (by rintro ⟨hc, -⟩; exact h c (by simp) hc)]
    rw [ih (fun c' hc' => h c' (by simp [hc']))]
    rfl

/-- Anything left by `stripLit` was part of the input. -/
theorem stripLit_mem (p : List Char) :
    ∀ (s r : List Char), stripLit p s = some r → ∀ c ∈ r, c ∈ s := by
  induction p with
  | nil =>
    intro s r h c hc
    simp only [stripLit] at h
    cases h
    exact hc
  | cons a p' ih =>
    intro s r h c hc
    cases s with
    | nil => simp [stripLit] at h
    | cons b s' =>
      simp only [stripLit] at h
      by_cases hab : a = b
      · rw [if_pos hab] at h
        exact List.mem_cons_of_mem b (ih s' r h c hc)
      · rw [if_neg hab] at h
        exact absurd h (by simp)

/-- A string without a closing brace has no fenced match. -/
theorem tryFenceAt_none_of_no_cb (s : List Char) (h : ∀ c ∈ s, c ≠ cb) :
    tryFenceAt s = none := by
  unfold tryFenceAt
  cases h3 : stripLit [btick, btick, btick] s with
  | none => rfl
  | some s1 =>
    have hs1 : ∀ c ∈ s1, c ≠ cb := fun c hc => h c (stripLit_mem _ s s1 h3 c hc)
    simp only []
    have hs2 : ∀ c ∈ (match stripLit ['j', 's', 'o', 'n'] s1 with
        | some r => r
        | none => s1), c ≠ cb := by
      cases hj : stripLit ['j', 's', 'o', 'n'] s1 with
      | none => simp only [hj]; exact hs1
      | some r =>
        simp only [hj]
        exact fun c hc => hs1 c (stripLit_mem _ s1 r hj c hc)
    cases hdw : List.dropWhile isReSpace (match stripLit ['j', 's', 'o', 'n'] s1 with
        | some r => r
        | none => s1) with
    | nil => rfl
    | cons c body =>
      have hbody : ∀ c2 ∈ c :: body, c2 ≠ cb := by
        intro c2 hc2
        apply hs2
        have hsub := List.dropWhile_sublist
          (l := (match stripLit ['j', 's', 'o', 'n'] s1 with
            | some r => r
            | none => s1)) (p := isReSpace)
        rw [hdw] at hsub
        exact hsub.subset hc2
      simp only []
      by_cases hc : c = ob
      · rw [if_pos hc, scanBody_none body (fun c2 hc2 => hbody c2 (by simp [hc2]))]
        rfl
      · rw [if_neg hc]

/-- A string without a closing brace has no fenced match anywhere. -/
theorem searchFence_none_of_no_cb (s : List Char) (h : ∀ c ∈ s, c ≠ cb) :
    searchFence s = none := by
  induction s with
  | nil => rfl
  | cons c rest ih =>
    simp only [searchFence]
    rw [tryFenceAt_none_of_no_cb (c :: rest) h]
    exact ih (fun c' hc' => h c' (by simp [hc']))

/-- A string without a closing brace has no greedy match either. -/
theorem greedyBrace_none_of_no_cb (s : List Char) (h : ∀ c ∈ s, c ≠ cb) :
    greedyBrace s = none := by
  unfold greedyBrace
  cases hdw : List.dropWhile (· ≠ ob) s with
  | nil => rfl
  | cons c rest =>
    have hsub : ∀ c' ∈ c :: rest, c' ≠ cb := by
      intro c' hc'
      apply h
      have := List.dropWhile_sublist (l := s) (p := (· ≠ ob))
      rw [hdw] at this
      exact this.subset hc'
    have : List.dropWhile (· ≠ cb) rest.reverse = [] := by
      rw [List.dropWhile_eq_nil_iff]
      intro x hx
      simp only [ne_eq, decide_eq_true_eq]
      exact hsub x (by simp [List.mem_reverse.mp hx])
    simp only [this, List.reverse_nil]
    simp

/-- The fenced pattern matches at the start of a fence block whose body is
backtick-free, capturing exactly the braced object. -/
theorem tryFenceAt_json (m : List Char) (hm : ∀ c ∈ m, c ≠ btick) :
    tryFenceAt (btick :: btick :: btick :: 'j' :: 's' :: 'o' :: 'n' :: Char.ofNat 10 ::
      ob :: (m ++ (cb :: Char.ofNat 10 :: btick :: btick :: btick :: []))) =
      some (ob :: m ++ [cb]) := by
  unfold tryFenceAt
  rw [show stripLit [btick, btick, btick]
      (btick :: btick :: btick :: 'j' :: 's' :: 'o' :: 'n' :: Char.ofNat 10 ::
        ob :: (m ++ (cb :: Char.ofNat 10 :: btick :: btick :: btick :: []))) =
      some ('j' :: 's' :: 'o' :: 'n' :: Char.ofNat 10 ::
        ob :: (m ++ (cb :: Char.ofNat 10 :: btick :: btick :: btick :: []))) from by
    simp [stripLit]]
  simp only []
  rw [show stripLit ['j', 's', 'o', 'n']
      ('j' :: 's' :: 'o' :: 'n' :: Char.ofNat 10 ::
        ob :: (m ++ (cb :: Char.ofNat 10 :: btick :: btick :: btick :: []))) =
      some (Char.ofNat 10 ::
        ob :: (m ++ (cb :: Char.ofNat 10 :: btick :: btick :: btick :: []))) from by
    simp [stripLit]]
  simp only []
  rw [show List.dropWhile isReSpace (Char.ofNat 10 ::
      ob :: (m ++ (cb :: Char.ofNat 10 :: btick :: btick :: btick :: []))) =
      ob :: (m ++ (cb :: Char.ofNat 10 :: btick :: btick :: btick :: [])) from by
    rw [List.dropWhile_cons_of_pos (by decide), List.dropWhile_cons_of_neg (by decide)]]
  simp only []
  rw [if_pos trivial,
    scanBody_exact m (Char.ofNat 10 :: btick :: btick :: btick :: []) hm rfl]
  rfl

/-- C3 (amended).  Extraction first tries a fenced block; otherwise it takes
the span from the first `\x7b` to the **last** `\x7d` of the whole reply
(greedy, across line breaks, with no balance check); a reply with no closing
brace at all fails with the fixed `ValueError` message (which does not carry
the reply); and a reply of backtick-free prose followed by a fenced object
parses to exactly what the bare object parses to. -/
theorem c3_extraction_behavior :
    (∀ (p m : List Char), (∀ c ∈ p, c ≠ btick) → (∀ c ∈ m, c ≠ btick) →
      extractAndParse (p ++ (btick :: btick :: btick :: 'j' :: 's' :: 'o' :: 'n' ::
          Char.ofNat 10 ::
          ob :: (m ++ (cb :: Char.ofNat 10 :: btick :: btick :: btick :: [])))) =
        loads (ob :: m ++ [cb]) ∧
      extractAndParse (ob :: m ++ [cb]) = loads (ob :: m ++ [cb])) ∧
    (∀ (s : List Char), (∀ c ∈ s, c ≠ cb) →
      extractAndParse s = .error "No JSON found in judge response") ∧
    (∀ (pre mid suf : List Char),
      searchFence (pre ++ ob :: mid ++ cb :: suf) = none →
      (∀ c ∈ pre, c ≠ ob) → (∀ c ∈ suf, c ≠ cb) →
      extract_json (pre ++ ob :: mid ++ cb :: suf) = .ok (ob :: mid ++ [cb])) := by
  refine ⟨?_, ?_, ?_⟩
  · intro p m hp hm
    have hfence : searchFence (btick :: btick :: btick :: 'j' :: 's' :: 'o' :: 'n' ::
        Char.ofNat 10 ::
        ob :: (m ++ (cb :: Char.ofNat 10 :: btick :: btick :: btick :: []))) =
        some (ob :: m ++ [cb]) := by
      unfold searchFence
      rw [tryFenceAt_json m hm]
    constructor
    · unfold extractAndParse extract_json
      rw [searchFence_append p _ hp, hfence]
      rfl
    · have hnb : ∀ c ∈ ob :: m ++ [cb], c ≠ btick := by
        intro c hc
        rw [show ob :: m ++ [cb] = ob :: (m ++ [cb]) from rfl] at hc
        rcases List.mem_cons.mp hc with rfl | hc2
        · decide
        · rcases List.mem_append.mp hc2 with hc3 | hc3
          · exact hm c hc3
          · simp only [List.mem_singleton] at hc3; subst hc3; decide
      unfold extractAndParse extract_json
      rw [searchFence_none _ hnb]
      rw [show ob :: m ++ [cb] = [] ++ ob :: m ++ cb :: [] from by simp,
        greedyBrace_exact [] m [] (by simp) (by simp)]
      simp
      rfl
  · intro s h
    unfold extractAndParse extract_json
    rw [searchFence_none_of_no_cb s h, greedyBrace_none_of_no_cb s h]
    rfl
  · intro pre mid suf hsf hpre hsuf
    unfold extract_json
    rw [hsf, greedyBrace_exact pre mid suf hpre hsuf]

/-- C3 witness: prose followed by a fenced object extracts and parses to the
same thing as the bare object, and a braceless reply yields the fixed
`ValueError`. -/
theorem c3_extraction_behavior_witness :
    (extractAndParse ("prose ".data ++ (btick :: btick :: btick :: 'j' :: 's' :: 'o' :: 'n' ::
        Char.ofNat 10 ::
        ob :: ("\"a\": 1".data ++ (cb :: Char.ofNat 10 :: btick :: btick :: btick :: [])))) =
      loads (ob :: "\"a\": 1".data ++ [cb])) ∧
    extractAndParse "no object at all".data = .error "No JSON found in judge response" := by
  constructor
  · exact (c3_extraction_behavior.1 "prose ".data "\"a\": 1".data
      (by decide) (by decide)).1
  · exact c3_extraction_behavior.2.1 "no object at all".data (by decide)

/-- C3 counterexample: the reply `{"a": 1} }` has a prefix that balances as
a single parseable object, yet extraction takes the greedy span up to the
last `}` and fails — the claim's "first span that balances as a single
object" and "fails only when nothing parseable exists" are both violated. -/
theorem c3_counterexample :
    (∃ j, loads ("\x7b\"a\": 1\x7d".data) = .ok j) ∧
    ("\x7b\"a\": 1\x7d \x7d".data = "\x7b\"a\": 1\x7d".data ++ " \x7d".data) ∧
    extractAndParse ("\x7b\"a\": 1\x7d \x7d".data) = .error "Extra data" :=
  ⟨⟨_, rfl⟩, by decide, rfl⟩

end ProWrite
